import Mathlib

/-!
Verification development for the monkey compiler/VM repository
(lexer, symbol table, bytecode, compiler, virtual machine).

Shallow embedding conventions:
* Go byte slices are `List Nat` with each entry a byte value (wrapped with
  `% 256` wherever Go's `byte`/`uint8` conversions occur).
* Go `int64` values are `Int` with two's-complement wrapping made explicit
  (`wrap64`) at every arithmetic operation.
* Go `int` indices that may become negative (`sp`, `ip`, `basePointer`,
  `framesIndex`) are `Int`; out-of-range slice accesses, nil dereferences and
  division by zero are modelled as `RunErr.goPanic` (a Go runtime panic),
  which is distinct from an error value returned by `Run`
  (`RunErr.runtimeErr`, produced by `fmt.Errorf`).
* Fallible functions return `Except` / `Option`.
-/

namespace Monkey

/-! ## code/code.go : the instruction set and the encoder -/

/-- Opcodes of the bytecode, in the order of the `iota` block of
`code/code.go` (so `toByte` below assigns the same byte values).
The last three constructors (`opClosure`, `opGetFree`, `opCurrentClosure`)
are not present in `code/code.go` of the snapshot; they are referenced by
`vm/vm.go` and `code/code_test.go`, whose defining file is missing — see
`opcodeDefinitionsModelledFromSpec` below. -/
inductive Opcode where
  | opConstant
  | opAdd
  | opSub
  | opMul
  | opDiv
  | opTrue
  | opFalse
  | opEqual
  | opNotEqual
  | opGreaterThan
  | opMinus
  | opBang
  | opJumpNotTruthy
  | opJump
  | opNull
  | opGetGlobal
  | opSetGlobal
  | opGetLocal
  | opSetLocal
  | opGetBuiltin
  | opArray
  | opHash
  | opIndex
  | opCall
  | opReturnValue
  | opReturn
  | opPop
  | opClosure
  | opGetFree
  | opCurrentClosure
  deriving DecidableEq, Repr

/-- The byte value of each opcode (the `iota` numbering of `code/code.go`;
`opClosure`/`opGetFree`/`opCurrentClosure` continue the numbering, their
defining file being absent from the snapshot). -/
def Opcode.toByte : Opcode → Nat
  | .opConstant => 0
  | .opAdd => 1
  | .opSub => 2
  | .opMul => 3
  | .opDiv => 4
  | .opTrue => 5
  | .opFalse => 6
  | .opEqual => 7
  | .opNotEqual => 8
  | .opGreaterThan => 9
  | .opMinus => 10
  | .opBang => 11
  | .opJumpNotTruthy => 12
  | .opJump => 13
  | .opNull => 14
  | .opGetGlobal => 15
  | .opSetGlobal => 16
  | .opGetLocal => 17
  | .opSetLocal => 18
  | .opGetBuiltin => 19
  | .opArray => 20
  | .opHash => 21
  | .opIndex => 22
  | .opCall => 23
  | .opReturnValue => 24
  | .opReturn => 25
  | .opPop => 26
  | .opClosure => 27
  | .opGetFree => 28
  | .opCurrentClosure => 29

/-- Decoding a byte back to an opcode (`code.Opcode(b)` followed by the
`definitions` lookup; bytes with no definition give `none`). -/
def byteToOpcode (b : Nat) : Option Opcode :=
  if b = 0 then some .opConstant
  else if b = 1 then some .opAdd
  else if b = 2 then some .opSub
  else if b = 3 then some .opMul
  else if b = 4 then some .opDiv
  else if b = 5 then some .opTrue
  else if b = 6 then some .opFalse
  else if b = 7 then some .opEqual
  else if b = 8 then some .opNotEqual
  else if b = 9 then some .opGreaterThan
  else if b = 10 then some .opMinus
  else if b = 11 then some .opBang
  else if b = 12 then some .opJumpNotTruthy
  else if b = 13 then some .opJump
  else if b = 14 then some .opNull
  else if b = 15 then some .opGetGlobal
  else if b = 16 then some .opSetGlobal
  else if b = 17 then some .opGetLocal
  else if b = 18 then some .opSetLocal
  else if b = 19 then some .opGetBuiltin
  else if b = 20 then some .opArray
  else if b = 21 then some .opHash
  else if b = 22 then some .opIndex
  else if b = 23 then some .opCall
  else if b = 24 then some .opReturnValue
  else if b = 25 then some .opReturn
  else if b = 26 then some .opPop
  else if b = 27 then some .opClosure
  else if b = 28 then some .opGetFree
  else if b = 29 then some .opCurrentClosure
  else none

/-- Operand widths of each opcode, from the `definitions` map of
`code/code.go`.

Modelled from the spec: the widths of `opClosure` ([2,1]), `opGetFree` ([1])
and `opCurrentClosure` ([]) — the version of `code/code.go` that defines
`OpClosure`, `OpGetFree` and `OpCurrentClosure` is missing from the snapshot
(only its test `code/code_test.go` and its caller `vm/vm.go` are present);
their widths follow the spec's opcode table (§4.4: `Closure` [2,1],
`GetFree` [1], `CurrentClosure` []). -/
def opcodeDefinitionsModelledFromSpec : Opcode → List Nat
  | .opConstant => [2]
  | .opAdd => []
  | .opSub => []
  | .opMul => []
  | .opDiv => []
  | .opTrue => []
  | .opFalse => []
  | .opEqual => []
  | .opNotEqual => []
  | .opGreaterThan => []
  | .opMinus => []
  | .opBang => []
  | .opJumpNotTruthy => [2]
  | .opJump => [2]
  | .opNull => []
  | .opGetGlobal => [2]
  | .opSetGlobal => [2]
  | .opGetLocal => [1]
  | .opSetLocal => [1]
  | .opGetBuiltin => [1]
  | .opArray => [2]
  | .opHash => [2]
  | .opIndex => []
  | .opCall => [1]
  | .opReturnValue => []
  | .opReturn => []
  | .opPop => []
  | .opClosure => [2, 1]
  | .opGetFree => [1]
  | .opCurrentClosure => []

/-- Short name used throughout; see `opcodeDefinitionsModelledFromSpec`. -/
def operandWidths : Opcode → List Nat := opcodeDefinitionsModelledFromSpec

/-- Encoding of the operand bytes of `Make`: each operand is written
big-endian in its defined width (width 2: `binary.BigEndian.PutUint16`
writes `uint16(o)` as high byte then low byte; width 1: `byte(o)`).
Widths with no matching operand keep the zero bytes of the freshly
allocated instruction slice. -/
def makeOperands : List Nat → List Nat → List Nat
  | [], _ => []
  | w :: ws, [] => List.replicate w 0 ++ makeOperands ws []
  | w :: ws, o :: os =>
      (if w = 2 then [o % 65536 / 256, o % 65536 % 256]
       else if w = 1 then [o % 256]
       else List.replicate w 0) ++ makeOperands ws os

/-- `code.Make`: one opcode byte followed by the big-endian operand bytes. -/
def make (op : Opcode) (operands : List Nat) : List Nat :=
  op.toByte :: makeOperands (operandWidths op) operands

/-! ## compiler symbol table (the `SymbolTable` of the snapshot's
`compiler` package) -/

/-- Symbol scopes. The snapshot's symbol table defines only `GLOBAL` and
`LOCAL` (its test file `compiler/symbol_table_test.go` references
`FreeScope`, `BuiltinScope` and `FunctionScope`, which no file in the
snapshot defines). -/
inductive SymbolScope where
  | globalScope
  | localScope
  deriving DecidableEq, Repr

/-- A symbol: name, scope and index. -/
structure Symbol where
  name : String
  scope : SymbolScope
  index : Nat
  deriving DecidableEq, Repr

/-- `SymbolTable`: a linked chain with a name-to-symbol store and a count
of definitions. (An inductive rather than a structure because of the
recursive `outer` pointer.) -/
inductive SymbolTable where
  | mk (outer : Option SymbolTable) (store : List (String × Symbol))
       (numDefinitions : Nat)

def SymbolTable.outer : SymbolTable → Option SymbolTable
  | .mk o _ _ => o

def SymbolTable.store : SymbolTable → List (String × Symbol)
  | .mk _ s _ => s

def SymbolTable.numDefinitions : SymbolTable → Nat
  | .mk _ _ n => n

/-- `NewSymbolTable`. -/
def newSymbolTable : SymbolTable := .mk none [] 0

/-- `NewEnclosedSymbolTable`. -/
def newEnclosedSymbolTable (outer : SymbolTable) : SymbolTable :=
  .mk (some outer) [] 0

/-- Map update (`s.store[name] = symbol`): replace an existing entry or
insert a new one. -/
def storeSet (store : List (String × Symbol)) (name : String) (sym : Symbol) :
    List (String × Symbol) :=
  match store with
  | [] => [(name, sym)]
  | (k, v) :: rest =>
      if k = name then (name, sym) :: rest else (k, v) :: storeSet rest name sym

/-- Map lookup (`store[name]`). -/
def storeGet (store : List (String × Symbol)) (name : String) : Option Symbol :=
  match store with
  | [] => none
  | (k, v) :: rest => if k = name then some v else storeGet rest name

/-- `SymbolTable.Define`: index is the current definition count; scope is
Global when there is no outer table, Local otherwise. -/
def SymbolTable.define (s : SymbolTable) (name : String) : Symbol × SymbolTable :=
  let scope : SymbolScope :=
    match s.outer with
    | none => .globalScope
    | some _ => .localScope
  let symbol : Symbol := { name := name, scope := scope, index := s.numDefinitions }
  (symbol, .mk s.outer (storeSet s.store name symbol) (s.numDefinitions + 1))

/-- `SymbolTable.Resolve`: look in the current store, else recurse into the
outer table. The snapshot's `Resolve` returns the outer symbol unchanged —
there is no Free-symbol conversion and no `FreeSymbols` list. -/
def SymbolTable.resolve : SymbolTable → String → Option Symbol
  | .mk outer store _, name =>
      match storeGet store name with
      | some sym => some sym
      | none =>
          match outer with
          | some o => o.resolve name
          | none => none

/-! ## token package and lexer (`lexer.go`)

Go strings are byte sequences; we model them as `List Nat` of byte values.
The Go lexer state is `(input, position, readPosition, ch)` with the
invariants `readPosition = position + 1` and
`ch = input[position]` when `position < len(input)`, `0` otherwise
(established by `New`'s initial `readChar` and preserved by every
`readChar`).  We therefore represent the state as `(input, position)` and
derive `ch` (`lch`) and the peeked byte (`peekChar`). -/

/-- Token kinds of `token/token.go` (keywords suffixed with `T` where the
Go name is a Lean keyword). `LTE`, `GTE` and `COLON` are declared by the
token package but never produced by this lexer. -/
inductive TokenType where
  | illegal
  | eof
  | ident
  | int
  | string
  | assign
  | plus
  | minus
  | bang
  | asterisk
  | slash
  | lt
  | gt
  | lte
  | gte
  | eq
  | notEq
  | comma
  | semicolon
  | colon
  | lparen
  | rparen
  | lbrace
  | rbrace
  | lbracket
  | rbracket
  | function
  | letT
  | trueT
  | falseT
  | ifT
  | elseT
  | returnT
  deriving DecidableEq, Repr

/-- A token: kind and literal bytes. -/
structure Token where
  tokType : TokenType
  literal : List Nat
  deriving DecidableEq, Repr

/-- Byte values of a Lean string literal (ASCII), used for keyword
comparisons. -/
def strBytes (s : String) : List Nat := s.data.map Char.toNat

/-- `token.LookupIdent`. -/
def lookupIdent (lit : List Nat) : TokenType :=
  if lit = strBytes "fn" then .function
  else if lit = strBytes "let" then .letT
  else if lit = strBytes "true" then .trueT
  else if lit = strBytes "false" then .falseT
  else if lit = strBytes "if" then .ifT
  else if lit = strBytes "else" then .elseT
  else if lit = strBytes "return" then .returnT
  else .ident

/-- The lexer state: source bytes and current position (see the module
comment above for why `readPosition` and `ch` are derived). -/
structure Lexer where
  input : List Nat
  position : Nat
  deriving Repr

/-- The current byte `l.ch` (0 at or past end of input). -/
def lch (l : Lexer) : Nat := l.input.getD l.position 0

/-- `peekChar`. -/
def peekChar (l : Lexer) : Nat := l.input.getD (l.position + 1) 0

/-- `readChar`: advance one byte. -/
def readChar (l : Lexer) : Lexer := { l with position := l.position + 1 }

/-- `lexer.New` (after its initial `readChar`). -/
def lexerNew (input : List Nat) : Lexer := { input := input, position := 0 }

/-- `isLetter`. -/
def isLetter (c : Nat) : Bool :=
  (97 ≤ c && c ≤ 122) || (65 ≤ c && c ≤ 90) || c = 95

/-- `isDigit`. -/
def isDigit (c : Nat) : Bool := 48 ≤ c && c ≤ 57

/-- Whitespace test of `skipWhitespace` (space, tab, LF, CR). -/
def isWhitespaceByte (c : Nat) : Bool := c = 32 || c = 9 || c = 10 || c = 13

/-!
The lexer's character loops (`skipWhitespace`, `readIdentifier`,
`readNumber`, `readString`) walk `position` forward while a byte test
holds; since `input[pos]` is byte 0 exactly when `input.drop pos` is empty
or starts with 0, each loop is phrased structurally on the remaining
suffix `input.drop pos`, carrying the absolute position.  Each `Aux`
function is extensionally the Go loop on the current position. -/

/-- Suffix walker of `skipWhitespace` (stops on the first non-whitespace
byte; past the end the byte is 0, not whitespace). -/
def skipWSAux : List Nat → Nat → Nat
  | [], pos => pos
  | c :: rest, pos => if isWhitespaceByte c then skipWSAux rest (pos + 1) else pos

/-- The position reached by `skipWhitespace`'s loop. -/
def skipWSPos (input : List Nat) (pos : Nat) : Nat :=
  skipWSAux (input.drop pos) pos

/-- `skipWhitespace`. -/
def skipWhitespace (l : Lexer) : Lexer :=
  { l with position := skipWSPos l.input l.position }

/-- Suffix walker of `readIdentifier`'s loop. -/
def readIdentAux : List Nat → Nat → Nat
  | [], pos => pos
  | c :: rest, pos => if isLetter c then readIdentAux rest (pos + 1) else pos

/-- End position of `readIdentifier`'s loop. -/
def readIdentEnd (input : List Nat) (pos : Nat) : Nat :=
  readIdentAux (input.drop pos) pos

/-- Suffix walker of `readNumber`'s loop. -/
def readNumberAux : List Nat → Nat → Nat
  | [], pos => pos
  | c :: rest, pos => if isDigit c then readNumberAux rest (pos + 1) else pos

/-- End position of `readNumber`'s loop. -/
def readNumberEnd (input : List Nat) (pos : Nat) : Nat :=
  readNumberAux (input.drop pos) pos

/-- Suffix walker of `readString`'s loop: `readChar` first, then stop on a
quote (34) or on byte 0 (hit at or past end of input). -/
def readStringAux : List Nat → Nat → Nat
  | [], pos => pos
  | c :: rest, pos => if c = 34 ∨ c = 0 then pos else readStringAux rest (pos + 1)

/-- Position where `readString`'s loop stops (on the closing quote or on
the 0 byte); the loop always advances once before testing. -/
def readStringEnd (input : List Nat) (pos : Nat) : Nat :=
  readStringAux (input.drop (pos + 1)) (pos + 1)

/-- Go slice `input[start:stop]`. -/
def sliceBytes (input : List Nat) (start stop : Nat) : List Nat :=
  (input.drop start).take (stop - start)

/-- `readIdentifier`: the literal and the state after the loop. -/
def readIdentifier (l : Lexer) : List Nat × Lexer :=
  let e := readIdentEnd l.input l.position
  (sliceBytes l.input l.position e, { l with position := e })

/-- `readNumber`. -/
def readNumber (l : Lexer) : List Nat × Lexer :=
  let e := readNumberEnd l.input l.position
  (sliceBytes l.input l.position e, { l with position := e })

/-- `readString`: the literal between the quotes and the state on the
closing quote (or at the 0 byte). -/
def readString (l : Lexer) : List Nat × Lexer :=
  let e := readStringEnd l.input l.position
  (sliceBytes l.input (l.position + 1) e, { l with position := e })

/-- The `switch l.ch` dispatch of `Lexer.NextToken` (`c` is the current
byte of `l`), returning the token and the successor state.  The
identifier and number branches return early (no trailing `readChar`);
every other branch ends with `readChar`. -/
def nextTokenSwitch (l : Lexer) (c : Nat) : Token × Lexer :=
  match c with
  | 61 =>
      if peekChar l = 61 then (⟨.eq, [61, 61]⟩, readChar (readChar l))
      else (⟨.assign, [61]⟩, readChar l)
  | 59 => (⟨.semicolon, [59]⟩, readChar l)
  | 40 => (⟨.lparen, [40]⟩, readChar l)
  | 41 => (⟨.rparen, [41]⟩, readChar l)
  | 44 => (⟨.comma, [44]⟩, readChar l)
  | 43 => (⟨.plus, [43]⟩, readChar l)
  | 45 => (⟨.minus, [45]⟩, readChar l)
  | 33 =>
      if peekChar l = 61 then (⟨.notEq, [33, 61]⟩, readChar (readChar l))
      else (⟨.bang, [33]⟩, readChar l)
  | 47 => (⟨.slash, [47]⟩, readChar l)
  | 42 => (⟨.asterisk, [42]⟩, readChar l)
  | 60 => (⟨.lt, [60]⟩, readChar l)
  | 62 => (⟨.gt, [62]⟩, readChar l)
  | 123 => (⟨.lbrace, [123]⟩, readChar l)
  | 125 => (⟨.rbrace, [125]⟩, readChar l)
  | 34 =>
      let (lit, l1) := readString l
      (⟨.string, lit⟩, readChar l1)
  | 91 => (⟨.lbracket, [91]⟩, readChar l)
  | 93 => (⟨.rbracket, [93]⟩, readChar l)
  | 0 => (⟨.eof, []⟩, readChar l)
  | c =>
      if isLetter c then
        let (lit, l1) := readIdentifier l
        (⟨lookupIdent lit, lit⟩, l1)
      else if isDigit c then
        let (lit, l1) := readNumber l
        (⟨.int, lit⟩, l1)
      else (⟨.illegal, [c]⟩, readChar l)

/-- `Lexer.NextToken`: skip whitespace, then dispatch on the current
byte. -/
def nextToken (l0 : Lexer) : Token × Lexer :=
  nextTokenSwitch (skipWhitespace l0) (lch (skipWhitespace l0))

/-- The lexer state before the `(k+1)`-st call to `NextToken`. -/
def lexStateAt (input : List Nat) : Nat → Lexer
  | 0 => lexerNew input
  | k + 1 => (nextToken (lexStateAt input k)).2

/-- The `(k+1)`-st token produced on `input` (0-indexed). -/
def tokenAt (input : List Nat) (k : Nat) : Token :=
  (nextToken (lexStateAt input k)).1

/-! ## object package (`object/object.go`) -/

/-- Object type tags (`ObjectType` string constants of `object.go`).
`RETURN_VALUE_OBJ`, `ERROR_OBJ` and `FUNCTION_OBJ` belong to the
tree-walking evaluator; only `ERROR_OBJ` is reachable from VM built-ins. -/
inductive ObjectType where
  | integerObj
  | booleanObj
  | nullObj
  | errorObj
  | compiledFunctionObj
  | stringObj
  | arrayObj
  | builtinObj
  | closureObj
  | hashObj
  deriving DecidableEq, Repr

/-- The Go string value of each type tag (used in error messages). -/
def ObjectType.goString : ObjectType → String
  | .integerObj => "INTEGER"
  | .booleanObj => "BOOLEAN"
  | .nullObj => "NULL"
  | .errorObj => "ERROR"
  | .compiledFunctionObj => "COMPILED_FUNCTION_OBJ"
  | .stringObj => "STRING"
  | .arrayObj => "ARRAY"
  | .builtinObj => "BUILTIN"
  | .closureObj => "CLOSURE"
  | .hashObj => "HASH"

/-- `object.CompiledFunction` (instruction bytes, local count, parameter
count). -/
structure CompiledFunction where
  instructions : List Nat
  numLocals : Nat
  numParameters : Nat
  deriving DecidableEq, Repr

/-- `object.HashKey`: a type tag and a `uint64` value. -/
structure HashKey where
  keyType : ObjectType
  value : Nat
  deriving DecidableEq, Repr

/-- Runtime values.  `nilRef` is the Go `nil` interface value (the content
of never-written stack, globals and frame slots); calling a method on it is
a nil-pointer dereference, modelled as a panic by `typeOf`.
A `hash` entry is `(hashkey, key, value)` (`object.HashPair` keeps the
original key object).  A closure is flattened to its compiled function and
free list; a builtin is its index into the builtins table. -/
inductive Object where
  | nilRef
  | integer (value : Int)
  | strObj (value : List Nat)
  | boolean (value : Bool)
  | null
  | errorMsg (message : String)
  | compiledFunction (fn : CompiledFunction)
  | closure (fn : CompiledFunction) (free : List Object)
  | builtinRef (index : Nat)
  | array (elements : List Object)
  | hash (pairs : List (HashKey × Object × Object))

/-- `Object.Type()`; `none` models the nil-pointer panic on a `nil`
interface value. -/
def typeOf : Object → Option ObjectType
  | .nilRef => none
  | .integer _ => some .integerObj
  | .strObj _ => some .stringObj
  | .boolean _ => some .booleanObj
  | .null => some .nullObj
  | .errorMsg _ => some .errorObj
  | .compiledFunction _ => some .compiledFunctionObj
  | .closure _ _ => some .closureObj
  | .builtinRef _ => some .builtinObj
  | .array _ => some .arrayObj
  | .hash _ => some .hashObj

/-- 64-bit FNV-1a over the bytes of a string (`hash/fnv`, `Sum64`). -/
def fnv64a (bytes : List Nat) : Nat :=
  bytes.foldl (fun h b => (h ^^^ b % 256) * 1099511628211 % 2 ^ 64)
    14695981039346656037

/-- Two's-complement `uint64` reinterpretation of an `int64` value. -/
def toUint64 (v : Int) : Nat := (v % 2 ^ 64).toNat

/-- `HashKey()` of the `Hashable` types (`Integer`, `Boolean`, `String`);
`none` for every other type (the failed `object.Hashable` assertion). -/
def hashKeyOf : Object → Option HashKey
  | .integer v => some ⟨.integerObj, toUint64 v⟩
  | .boolean b => some ⟨.booleanObj, if b then 1 else 0⟩
  | .strObj s => some ⟨.stringObj, fnv64a s⟩
  | _ => none

/-! ## vm package (`vm/vm.go`, `vm/frame.go`) -/

/-- Outcome classification of `Run`: `runtimeErr` is an error value
returned from `Run` (`fmt.Errorf`); `goPanic` is a Go runtime panic
(out-of-range index, nil dereference, integer divide by zero) that crashes
the process rather than being returned. -/
inductive RunErr where
  | runtimeErr (msg : String)
  | goPanic (msg : String)
  deriving DecidableEq, Repr

/-- `StackSize`. -/
def stackSize : Int := 2048

/-- `GlobalsSize`. -/
def globalsSize : Int := 65536

/-- `MaxFrames`. -/
def maxFrames : Int := 1024

/-- Two's-complement wrap of an integer into `int64` range (Go `int64`
arithmetic). -/
def wrap64 (n : Int) : Int := (n + 2 ^ 63) % 2 ^ 64 - 2 ^ 63

/-- Go slice read `l[i]` with an `int` index: `none` models the
index-out-of-range panic. -/
def intGet (l : List α) (i : Int) : Option α :=
  if i < 0 then none else l.get? i.toNat

/-- Write at a natural index, walking only the written prefix (`none`
past the end). -/
def natSet : List α → Nat → α → Option (List α)
  | [], _, _ => none
  | _ :: rest, 0, v => some (v :: rest)
  | a :: rest, n + 1, v =>
      match natSet rest n v with
      | some l => some (a :: l)
      | none => none

/-- Go slice write `l[i] = v`: `none` models the index-out-of-range
panic. -/
def intSet (l : List α) (i : Int) (v : α) : Option (List α) :=
  if i < 0 then none else natSet l i.toNat v

/-- Go sub-slice `l[lo:hi]`. -/
def intSlice (l : List α) (lo hi : Int) : Option (List α) :=
  if 0 ≤ lo ∧ lo ≤ hi ∧ hi ≤ (l.length : Int) then
    some ((l.drop lo.toNat).take (hi - lo).toNat)
  else none

/-- `code.ReadUint16(ins[off:])`: big-endian, two bytes; panics when fewer
than two bytes remain. -/
def readUint16At (ins : List Nat) (off : Int) : Except RunErr Nat :=
  if 0 ≤ off ∧ off + 1 < (ins.length : Int) then
    .ok ((ins.getD off.toNat 0 % 256) * 256 + ins.getD (off.toNat + 1) 0 % 256)
  else .error (.goPanic "runtime error: index out of range")

/-- `code.ReadUint8(ins[off:])`. -/
def readUint8At (ins : List Nat) (off : Int) : Except RunErr Nat :=
  if 0 ≤ off ∧ off < (ins.length : Int) then
    .ok (ins.getD off.toNat 0 % 256)
  else .error (.goPanic "runtime error: index out of range")

/-- `vm.Frame`: the running closure (compiled function plus free values),
instruction pointer (starts at −1) and base pointer. -/
structure Frame where
  clFn : CompiledFunction
  clFree : List Object
  ip : Int
  basePointer : Int

/-- `NewFrame`. -/
def newFrame (fn : CompiledFunction) (free : List Object) (basePointer : Int) :
    Frame :=
  { clFn := fn, clFree := free, ip := -1, basePointer := basePointer }

/-- `Frame.Instructions`. -/
def Frame.instructions (f : Frame) : List Nat := f.clFn.instructions

/-- `compiler.Bytecode`. -/
structure Bytecode where
  instructions : List Nat
  constants : List Object

/-- The VM state.  `frames` holds the slots written so far (Go
preallocates 1024 nil pointers; a read of a never-written slot is a nil
dereference and a read at a negative index an out-of-range panic — both
are `goPanic` here). -/
structure VM where
  constants : List Object
  frames : List Frame
  framesIndex : Int
  stack : List Object
  sp : Int
  globals : List Object

/-- `vm.New`: the main program wrapped as a function, then a closure, in a
single main frame with base pointer 0. -/
def vmNew (bytecode : Bytecode) : VM :=
  let mainFn : CompiledFunction :=
    { instructions := bytecode.instructions, numLocals := 0, numParameters := 0 }
  let mainFrame := newFrame mainFn [] 0
  { constants := bytecode.constants
    frames := [mainFrame]
    framesIndex := 1
    stack := List.replicate 2048 .nilRef
    sp := 0
    globals := List.replicate 65536 .nilRef }

/-- `vm.currentFrame()` (`frames[framesIndex-1]`). -/
def currentFrame (vm : VM) : Except RunErr Frame :=
  match intGet vm.frames (vm.framesIndex - 1) with
  | some f => .ok f
  | none => .error (.goPanic "runtime error: index out of range")

/-- Replace the current frame (Go mutates it through the stored
pointer). -/
def setCurrentFrame (vm : VM) (f : Frame) : Except RunErr VM :=
  match intSet vm.frames (vm.framesIndex - 1) f with
  | some fs => .ok { vm with frames := fs }
  | none => .error (.goPanic "runtime error: index out of range")

/-- Advance the current frame's `ip` by `n` (`vm.currentFrame().ip += n`). -/
def advanceIp (vm : VM) (n : Int) : Except RunErr VM := do
  let fr ← currentFrame vm
  setCurrentFrame vm { fr with ip := fr.ip + n }

/-- `vm.push`: overflow beyond `StackSize` is a returned runtime error
(checked before the write); a write at a negative `sp` is a panic. -/
def push (vm : VM) (o : Object) : Except RunErr VM :=
  if stackSize ≤ vm.sp then .error (.runtimeErr "stack overflow")
  else
    match intSet vm.stack vm.sp o with
    | some st => .ok { vm with stack := st, sp := vm.sp + 1 }
    | none => .error (.goPanic "runtime error: index out of range")

/-- `vm.pop` (`stack[sp-1]`, panicking at `sp = 0` on the 2048-slot
stack... at `sp ≤ 0`). -/
def pop (vm : VM) : Except RunErr (Object × VM) :=
  match intGet vm.stack (vm.sp - 1) with
  | some o => .ok (o, { vm with sp := vm.sp - 1 })
  | none => .error (.goPanic "runtime error: index out of range")

/-- `vm.pushFrame`: writes `frames[framesIndex]` with no capacity check —
at `framesIndex ≥ MaxFrames` (the fixed 1024-slot array) this is an
index-out-of-range panic, not a returned error. -/
def pushFrame (vm : VM) (f : Frame) : Except RunErr VM :=
  if 0 ≤ vm.framesIndex ∧ vm.framesIndex < maxFrames then
    .ok { vm with
          frames := vm.frames.take vm.framesIndex.toNat ++ [f] ++
                    vm.frames.drop (vm.framesIndex.toNat + 1)
          framesIndex := vm.framesIndex + 1 }
  else .error (.goPanic "runtime error: index out of range")

/-- `vm.popFrame`: decrement `framesIndex` and read the slot there. -/
def popFrame (vm : VM) : Except RunErr (Frame × VM) :=
  let vm1 : VM := { vm with framesIndex := vm.framesIndex - 1 }
  match intGet vm.frames vm1.framesIndex with
  | some f => .ok (f, vm1)
  | none => .error (.goPanic "runtime error: index out of range")

/-- `vm.StackTop`. -/
def stackTop (vm : VM) : Option Object :=
  if vm.sp = 0 then none else intGet vm.stack (vm.sp - 1)

/-- `vm.LastPoppedStackElem` (`stack[sp]`; `none` is the panic when `sp`
is out of range). -/
def lastPoppedStackElem (vm : VM) : Option Object := intGet vm.stack vm.sp

/-- `nativeBoolToBooleanObject` (pushes the interned `True`/`False`). -/
def nativeBoolToBooleanObject (b : Bool) : Object := .boolean b

/-- `isTruthy`: `False` and `Null` are not truthy, everything else
(including `Integer 0`, empty containers and a nil slot) is. -/
def isTruthy : Object → Bool
  | .boolean b => b
  | .null => false
  | _ => true

mutual

/-- Structural equality on objects (used below by `goEq`). -/
def objBeq : Object → Object → Bool
  | .nilRef, .nilRef => true
  | .integer a, .integer b => a == b
  | .strObj a, .strObj b => a == b
  | .boolean a, .boolean b => a == b
  | .null, .null => true
  | .errorMsg a, .errorMsg b => a == b
  | .compiledFunction a, .compiledFunction b => a == b
  | .closure f1 l1, .closure f2 l2 => f1 == f2 && objListBeq l1 l2
  | .builtinRef a, .builtinRef b => a == b
  | .array l1, .array l2 => objListBeq l1 l2
  | .hash p1, .hash p2 => objPairsBeq p1 p2
  | _, _ => false

def objListBeq : List Object → List Object → Bool
  | [], [] => true
  | a :: as, b :: bs => objBeq a b && objListBeq as bs
  | _, _ => false

def objPairsBeq : List (HashKey × Object × Object) →
    List (HashKey × Object × Object) → Bool
  | [], [] => true
  | (h1, k1, v1) :: r1, (h2, k2, v2) :: r2 =>
      h1 == h2 && objBeq k1 k2 && objBeq v1 v2 && objPairsBeq r1 r2
  | _, _ => false

end

/-- Go interface equality `right == left` as used by `executeComparison`
on non-integer operands.  For the interned singletons (`True`, `False`,
`Null`) pointer identity coincides with this structural test; the spec
(§4.6) describes the comparison for remaining types as structural. -/
def goEq (a b : Object) : Bool := objBeq a b

/-- `executeIntegerComparison` (argument order of the source:
`op, left, right`). -/
def executeIntegerComparison (op : Opcode) (left right : Object) (vm : VM) :
    Except RunErr VM := do
  let leftValue ← match left with
    | .integer v => pure v
    | _ => .error (.goPanic "interface conversion")
  let rightValue ← match right with
    | .integer v => pure v
    | _ => .error (.goPanic "interface conversion")
  match op with
  | .opEqual => push vm (nativeBoolToBooleanObject (decide (rightValue = leftValue)))
  | .opNotEqual => push vm (nativeBoolToBooleanObject (!decide (rightValue = leftValue)))
  | .opGreaterThan => push vm (nativeBoolToBooleanObject (decide (rightValue < leftValue)))
  | _ => .error (.runtimeErr ("unknown operator: " ++ toString op.toByte))

/-- `executeComparison`. -/
def executeComparison (op : Opcode) (vm0 : VM) : Except RunErr VM := do
  let (right, vm1) ← pop vm0
  let (left, vm) ← pop vm1
  let tl ← match typeOf left with
    | some t => pure t
    | none => .error (.goPanic "runtime error: invalid memory address or nil pointer dereference")
  if tl = .integerObj then
    let tr ← match typeOf right with
      | some t => pure t
      | none => .error (.goPanic "runtime error: invalid memory address or nil pointer dereference")
    if tr = .integerObj then
      executeIntegerComparison op left right vm
    else
      match op with
      | .opEqual => push vm (nativeBoolToBooleanObject (goEq right left))
      | .opNotEqual => push vm (nativeBoolToBooleanObject (!goEq right left))
      | _ => .error (.runtimeErr ("unknown operator: " ++ toString op.toByte ++
          " (" ++ tl.goString ++ " " ++ ObjectType.goString (tr) ++ ")"))
  else
    match op with
    | .opEqual => push vm (nativeBoolToBooleanObject (goEq right left))
    | .opNotEqual => push vm (nativeBoolToBooleanObject (!goEq right left))
    | _ => do
      let tr ← match typeOf right with
        | some t => pure t
        | none => .error (.goPanic "runtime error: invalid memory address or nil pointer dereference")
      .error (.runtimeErr ("unknown operator: " ++ toString op.toByte ++
          " (" ++ tl.goString ++ " " ++ tr.goString ++ ")"))

/-- `executeBangOperator`. -/
def executeBangOperator (vm0 : VM) : Except RunErr VM := do
  let (operand, vm) ← pop vm0
  match operand with
  | .boolean true => push vm (.boolean false)
  | .boolean false => push vm (.boolean true)
  | .null => push vm (.boolean true)
  | _ => push vm (.boolean false)

/-- `executeMinusOperator` (two's-complement negation). -/
def executeMinusOperator (vm0 : VM) : Except RunErr VM := do
  let (operand, vm) ← pop vm0
  match typeOf operand with
  | none => .error (.goPanic "runtime error: invalid memory address or nil pointer dereference")
  | some t =>
    if t ≠ .integerObj then
      .error (.runtimeErr ("unsupported type for negation: " ++ t.goString))
    else
      match operand with
      | .integer v => push vm (.integer (wrap64 (-v)))
      | _ => .error (.goPanic "interface conversion")

/-- `executeBinaryIntegerOperation`: wrapping `int64` arithmetic;
division truncates toward zero and **panics** on a zero divisor (Go
`integer divide by zero`, not a returned error). -/
def executeBinaryIntegerOperation (op : Opcode) (left right : Object) (vm : VM) :
    Except RunErr VM := do
  let leftValue ← match left with
    | .integer v => pure v
    | _ => .error (.goPanic "interface conversion")
  let rightValue ← match right with
    | .integer v => pure v
    | _ => .error (.goPanic "interface conversion")
  let result ← match op with
    | .opAdd => pure (wrap64 (leftValue + rightValue))
    | .opSub => pure (wrap64 (leftValue - rightValue))
    | .opMul => pure (wrap64 (leftValue * rightValue))
    | .opDiv =>
        if rightValue = 0 then
          .error (.goPanic "runtime error: integer divide by zero")
        else pure (wrap64 (Int.tdiv leftValue rightValue))
    | _ => .error (.runtimeErr ("unknown integer operator: " ++ toString op.toByte))
  push vm (.integer result)

/-- `executeBinaryStringOperation` (byte concatenation for `OpAdd`). -/
def executeBinaryStringOperation (op : Opcode) (left right : Object) (vm : VM) :
    Except RunErr VM := do
  if op ≠ .opAdd then
    .error (.runtimeErr ("unknown string operator: " ++ toString op.toByte))
  else
    match left, right with
    | .strObj l, .strObj r => push vm (.strObj (l ++ r))
    | _, _ => .error (.goPanic "interface conversion")

/-- `executeBinaryOperation`. -/
def executeBinaryOperation (op : Opcode) (vm0 : VM) : Except RunErr VM := do
  let (right, vm1) ← pop vm0
  let (left, vm) ← pop vm1
  let leftType ← match typeOf left with
    | some t => pure t
    | none => .error (.goPanic "runtime error: invalid memory address or nil pointer dereference")
  let rightType ← match typeOf right with
    | some t => pure t
    | none => .error (.goPanic "runtime error: invalid memory address or nil pointer dereference")
  if leftType = .integerObj ∧ rightType = .integerObj then
    executeBinaryIntegerOperation op left right vm
  else if leftType = .stringObj ∧ rightType = .stringObj then
    executeBinaryStringOperation op left right vm
  else
    .error (.runtimeErr ("unsupported types for binary operation: " ++
      leftType.goString ++ " " ++ rightType.goString))

/-- `buildArray`: read `stack[startIndex:endIndex]` into a new array. -/
def buildArrayLoop (stack : List Object) (i endIndex : Int) :
    Except RunErr (List Object) :=
  if i < endIndex then do
    let o ← match intGet stack i with
      | some o => pure o
      | none => .error (.goPanic "runtime error: index out of range")
    let rest ← buildArrayLoop stack (i + 1) endIndex
    pure (o :: rest)
  else pure []
termination_by (endIndex - i).toNat
decreasing_by omega

/-- `vm.buildArray`. -/
def buildArray (vm : VM) (startIndex endIndex : Int) : Except RunErr Object := do
  let elements ← buildArrayLoop vm.stack startIndex endIndex
  pure (.array elements)

/-- Go map insert (`hashedPairs[key] = pair`): replace or append. -/
def hashInsert (pairs : List (HashKey × Object × Object)) (hk : HashKey)
    (k v : Object) : List (HashKey × Object × Object) :=
  match pairs with
  | [] => [(hk, k, v)]
  | (hk0, k0, v0) :: rest =>
      if hk0 = hk then (hk, k, v) :: rest
      else (hk0, k0, v0) :: hashInsert rest hk k v

/-- `vm.buildHash`'s loop over consecutive key/value stack slots. -/
def buildHashLoop (stack : List Object) (i endIndex : Int)
    (acc : List (HashKey × Object × Object)) :
    Except RunErr (List (HashKey × Object × Object)) :=
  if i < endIndex then do
    let key ← match intGet stack i with
      | some o => pure o
      | none => .error (.goPanic "runtime error: index out of range")
    let value ← match intGet stack (i + 1) with
      | some o => pure o
      | none => .error (.goPanic "runtime error: index out of range")
    match hashKeyOf key with
    | some hk => buildHashLoop stack (i + 2) endIndex (hashInsert acc hk key value)
    | none =>
        match typeOf key with
        | some t => .error (.runtimeErr ("unusable as hash key: " ++ t.goString))
        | none => .error (.goPanic "runtime error: invalid memory address or nil pointer dereference")
  else pure acc
termination_by (endIndex - i).toNat
decreasing_by omega

/-- `vm.buildHash`. -/
def buildHash (vm : VM) (startIndex endIndex : Int) : Except RunErr Object := do
  let pairs ← buildHashLoop vm.stack startIndex endIndex []
  pure (.hash pairs)

/-- `executeArrayIndex`: out-of-range indexing pushes `Null`. -/
def executeArrayIndex (array index : Object) (vm : VM) : Except RunErr VM := do
  let elements ← match array with
    | .array es => pure es
    | _ => .error (.goPanic "interface conversion")
  let i ← match index with
    | .integer v => pure v
    | _ => .error (.goPanic "interface conversion")
  let maxIdx : Int := (elements.length : Int) - 1
  if i < 0 ∨ maxIdx < i then push vm .null
  else
    match intGet elements i with
    | some o => push vm o
    | none => .error (.goPanic "runtime error: index out of range")

/-- `executeHashIndex`: a missing key pushes `Null`; an unhashable key is
a returned runtime error. -/
def executeHashIndex (hashObj index : Object) (vm : VM) : Except RunErr VM := do
  let pairs ← match hashObj with
    | .hash ps => pure ps
    | _ => .error (.goPanic "interface conversion")
  match hashKeyOf index with
  | none =>
      match typeOf index with
      | some t => .error (.runtimeErr ("unusable as hash key: " ++ t.goString))
      | none => .error (.goPanic "runtime error: invalid memory address or nil pointer dereference")
  | some hk =>
      match pairs.find? (fun p => p.1 = hk) with
      | some (_, _, v) => push vm v
      | none => push vm .null

/-- `executeIndexExpression` (the type tests call `Type()`, hence the
nil-dereference panics, in the source's evaluation order). -/
def executeIndexExpression (left index : Object) (vm : VM) : Except RunErr VM := do
  let tl ← match typeOf left with
    | some t => pure t
    | none => .error (.goPanic "runtime error: invalid memory address or nil pointer dereference")
  if tl = .arrayObj then do
    let ti ← match typeOf index with
      | some t => pure t
      | none => .error (.goPanic "runtime error: invalid memory address or nil pointer dereference")
    if ti = .integerObj then executeArrayIndex left index vm
    else .error (.runtimeErr ("index operator not supported: " ++ tl.goString))
  else if tl = .hashObj then executeHashIndex left index vm
  else .error (.runtimeErr ("index operator not supported: " ++ tl.goString))

/-- Modelled from the spec: the builtins table `object.Builtins` — the
file of the `object` package defining it is missing from the snapshot
(`vm/vm.go` and the spec §4.7 reference it).  Indices follow the spec's
listing: `len`, `first`, `last`, `rest`, `push`, `puts`.  Error results
are `Error` objects; `puts` prints (I/O not modelled) and returns the Go
`nil` result (`none`), which `callBuiltin` turns into `Null`. -/
def builtinFnModelledFromSpec (idx : Nat) (args : List Object) : Option Object :=
  match idx with
  | 0 =>
      match args with
      | [.strObj s] => some (.integer (s.length : Int))
      | [.array es] => some (.integer (es.length : Int))
      | [_] => some (.errorMsg "argument to len not supported")
      | _ => some (.errorMsg "wrong number of arguments")
  | 1 =>
      match args with
      | [.array es] => match es.head? with | some x => some x | none => none
      | [_] => some (.errorMsg "argument to first must be ARRAY")
      | _ => some (.errorMsg "wrong number of arguments")
  | 2 =>
      match args with
      | [.array es] => match es.getLast? with | some x => some x | none => none
      | [_] => some (.errorMsg "argument to last must be ARRAY")
      | _ => some (.errorMsg "wrong number of arguments")
  | 3 =>
      match args with
      | [.array es] =>
          match es with
          | [] => none
          | _ :: rest => some (.array rest)
      | [_] => some (.errorMsg "argument to rest must be ARRAY")
      | _ => some (.errorMsg "wrong number of arguments")
  | 4 =>
      match args with
      | [.array es, v] => some (.array (es ++ [v]))
      | [_, _] => some (.errorMsg "argument to push must be ARRAY")
      | _ => some (.errorMsg "wrong number of arguments")
  | 5 => none
  | _ => none

/-- Number of entries of the modelled builtins table. -/
def builtinsLength : Nat := 6

/-- `vm.callClosure`: arity check, new frame at `sp − numArgs`, then
reserve the local slots. -/
def callClosure (fn : CompiledFunction) (free : List Object) (numArgs : Nat)
    (vm : VM) : Except RunErr VM := do
  if numArgs ≠ fn.numParameters then
    .error (.runtimeErr ("wrong number of arguments: want=" ++
      toString fn.numParameters ++ ", got=" ++ toString numArgs))
  else do
    let frame := newFrame fn free (vm.sp - (numArgs : Int))
    let vm1 ← pushFrame vm frame
    pure { vm1 with sp := frame.basePointer + (fn.numLocals : Int) }

/-- `vm.callBuiltin`: slice out the arguments, call, reset `sp` past the
callee, then push the result (`Null` for a Go `nil` result).  The source
**ignores** the error returned by these pushes (`vm.push(result)` without
an error check), so a failed push leaves the VM unchanged and the call
still succeeds; only a panic propagates. -/
def callBuiltin (idx : Nat) (numArgs : Nat) (vm : VM) : Except RunErr VM := do
  let args ← match intSlice vm.stack (vm.sp - (numArgs : Int)) vm.sp with
    | some l => pure l
    | none => .error (.goPanic "runtime error: slice bounds out of range")
  let result := builtinFnModelledFromSpec idx args
  let vm1 : VM := { vm with sp := vm.sp - (numArgs : Int) - 1 }
  let pushed :=
    match result with
    | some r => push vm1 r
    | none => push vm1 .null
  match pushed with
  | .ok vm2 => pure vm2
  | .error (.runtimeErr _) => pure vm1
  | .error (.goPanic m) => .error (.goPanic m)

/-- `vm.executeCall`: dispatch on the callee at `sp − 1 − numArgs`; only
closures and builtins are callable. -/
def executeCall (numArgs : Nat) (vm : VM) : Except RunErr VM := do
  let callee ← match intGet vm.stack (vm.sp - 1 - (numArgs : Int)) with
    | some o => pure o
    | none => .error (.goPanic "runtime error: index out of range")
  match callee with
  | .closure fn free => callClosure fn free numArgs vm
  | .builtinRef idx => callBuiltin idx numArgs vm
  | _ => .error (.runtimeErr "calling non-function and non-builtin")

/-- `vm.pushClosure`: fetch the constant, check it is a compiled function,
copy the top `numFree` stack values into the free slice in order, shrink
`sp`, push the closure. -/
def pushClosure (constIndex numFree : Nat) (vm : VM) : Except RunErr VM := do
  let constant ← match vm.constants.get? constIndex with
    | some c => pure c
    | none => .error (.goPanic "runtime error: index out of range")
  let fn ← match constant with
    | .compiledFunction f => pure f
    | _ => .error (.runtimeErr "not a function")
  let free ← buildArrayLoop vm.stack (vm.sp - (numFree : Int)) vm.sp
  let vm1 : VM := { vm with sp := vm.sp - (numFree : Int) }
  push vm1 (.closure fn free)

/-- Set the current frame's `ip` to an absolute value (the jump cases). -/
def setIp (vm : VM) (i : Int) : Except RunErr VM := do
  let fr ← currentFrame vm
  setCurrentFrame vm { fr with ip := i }

/-- One iteration of `Run`'s fetch–decode–execute loop: pre-increment
`ip`, read the opcode there, dispatch.  `.inl` continues the loop; `.inr`
is the early `return nil` of the `OpReturn` case (`vm.go` returns `nil` —
success — when that case's push fails).  A byte with no matching `case` in
the `switch` falls through: the iteration does nothing further. -/
def step (vm0 : VM) : Except RunErr (VM ⊕ VM) := do
  let fr0 ← currentFrame vm0
  let vm ← setCurrentFrame vm0 { fr0 with ip := fr0.ip + 1 }
  let ip := fr0.ip + 1
  let ins := fr0.clFn.instructions
  let b ← match intGet ins ip with
    | some b => pure b
    | none => .error (.goPanic "runtime error: index out of range")
  match byteToOpcode b with
  | none => pure (.inl vm)
  | some op =>
    match op with
    | .opAdd | .opSub | .opMul | .opDiv => do
        let vm1 ← executeBinaryOperation op vm
        pure (.inl vm1)
    | .opConstant => do
        let constIndex ← readUint16At ins (ip + 1)
        let vm1 ← advanceIp vm 2
        let c ← match vm1.constants.get? constIndex with
          | some c => pure c
          | none => .error (.goPanic "runtime error: index out of range")
        let vm2 ← push vm1 c
        pure (.inl vm2)
    | .opTrue => do
        let vm1 ← push vm (.boolean true)
        pure (.inl vm1)
    | .opFalse => do
        let vm1 ← push vm (.boolean false)
        pure (.inl vm1)
    | .opEqual | .opNotEqual | .opGreaterThan => do
        let vm1 ← executeComparison op vm
        pure (.inl vm1)
    | .opBang => do
        let vm1 ← executeBangOperator vm
        pure (.inl vm1)
    | .opMinus => do
        let vm1 ← executeMinusOperator vm
        pure (.inl vm1)
    | .opPop => do
        let (_, vm1) ← pop vm
        pure (.inl vm1)
    | .opJump => do
        let pos ← readUint16At ins (ip + 1)
        let vm1 ← setIp vm ((pos : Int) - 1)
        pure (.inl vm1)
    | .opJumpNotTruthy => do
        let pos ← readUint16At ins (ip + 1)
        let vm1 ← advanceIp vm 2
        let (condition, vm2) ← pop vm1
        if !isTruthy condition then
          let vm3 ← setIp vm2 ((pos : Int) - 1)
          pure (.inl vm3)
        else pure (.inl vm2)
    | .opNull => do
        let vm1 ← push vm .null
        pure (.inl vm1)
    | .opSetGlobal => do
        let globalIndex ← readUint16At ins (ip + 1)
        let vm1 ← advanceIp vm 2
        let (v, vm2) ← pop vm1
        match intSet vm2.globals (globalIndex : Int) v with
        | some g => pure (.inl { vm2 with globals := g })
        | none => .error (.goPanic "runtime error: index out of range")
    | .opGetGlobal => do
        let globalIndex ← readUint16At ins (ip + 1)
        let vm1 ← advanceIp vm 2
        let o ← match intGet vm1.globals (globalIndex : Int) with
          | some o => pure o
          | none => .error (.goPanic "runtime error: index out of range")
        let vm2 ← push vm1 o
        pure (.inl vm2)
    | .opArray => do
        let numElements ← readUint16At ins (ip + 1)
        let vm1 ← advanceIp vm 2
        let array ← buildArray vm1 (vm1.sp - (numElements : Int)) vm1.sp
        let vm2 : VM := { vm1 with sp := vm1.sp - (numElements : Int) }
        let vm3 ← push vm2 array
        pure (.inl vm3)
    | .opHash => do
        let numElements ← readUint16At ins (ip + 1)
        let vm1 ← advanceIp vm 2
        let hash ← buildHash vm1 (vm1.sp - (numElements : Int)) vm1.sp
        let vm2 : VM := { vm1 with sp := vm1.sp - (numElements : Int) }
        let vm3 ← push vm2 hash
        pure (.inl vm3)
    | .opIndex => do
        let (index, vm1) ← pop vm
        let (left, vm2) ← pop vm1
        let vm3 ← executeIndexExpression left index vm2
        pure (.inl vm3)
    | .opCall => do
        let numArgs ← readUint8At ins (ip + 1)
        let vm1 ← advanceIp vm 1
        let vm2 ← executeCall numArgs vm1
        pure (.inl vm2)
    | .opSetLocal => do
        let localIndex ← readUint8At ins (ip + 1)
        let vm1 ← advanceIp vm 1
        let fr ← currentFrame vm1
        let (v, vm2) ← pop vm1
        match intSet vm2.stack (fr.basePointer + (localIndex : Int)) v with
        | some st => pure (.inl { vm2 with stack := st })
        | none => .error (.goPanic "runtime error: index out of range")
    | .opGetLocal => do
        let localIndex ← readUint8At ins (ip + 1)
        let vm1 ← advanceIp vm 1
        let fr ← currentFrame vm1
        let o ← match intGet vm1.stack (fr.basePointer + (localIndex : Int)) with
          | some o => pure o
          | none => .error (.goPanic "runtime error: index out of range")
        let vm2 ← push vm1 o
        pure (.inl vm2)
    | .opReturnValue => do
        let (returnValue, vm1) ← pop vm
        let (frame, vm2) ← popFrame vm1
        let vm3 : VM := { vm2 with sp := frame.basePointer - 1 }
        let vm4 ← push vm3 returnValue
        pure (.inl vm4)
    | .opReturn => do
        let (frame, vm1) ← popFrame vm
        let vm2 : VM := { vm1 with sp := frame.basePointer - 1 }
        match push vm2 .null with
        | .ok vm3 => pure (.inl vm3)
        | .error (.runtimeErr _) => pure (.inr vm2)
        | .error (.goPanic m) => .error (.goPanic m)
    | .opGetBuiltin => do
        let builtinIndex ← readUint8At ins (ip + 1)
        let vm1 ← advanceIp vm 1
        if builtinIndex < builtinsLength then do
          let vm2 ← push vm1 (.builtinRef builtinIndex)
          pure (.inl vm2)
        else .error (.goPanic "runtime error: index out of range")
    | .opClosure => do
        let constIndex ← readUint16At ins (ip + 1)
        let numFree ← readUint8At ins (ip + 3)
        let vm1 ← advanceIp vm 3
        let vm2 ← pushClosure constIndex numFree vm1
        pure (.inl vm2)
    | .opGetFree => do
        let freeIndex ← readUint8At ins (ip + 1)
        let vm1 ← advanceIp vm 1
        let fr ← currentFrame vm1
        let o ← match intGet fr.clFree (freeIndex : Int) with
          | some o => pure o
          | none => .error (.goPanic "runtime error: index out of range")
        let vm2 ← push vm1 o
        pure (.inl vm2)
    | .opCurrentClosure => do
        let fr ← currentFrame vm
        let vm1 ← push vm (.closure fr.clFn fr.clFree)
        pure (.inl vm1)

/-- `vm.Run`: iterate `step` while the current frame's
`ip < len(instructions) − 1`.  Fuel bounds the iteration count (`none`
means the fuel ran out, not an outcome of the program); `some (.ok _)` is
a normal return, `some (.error _)` a returned runtime error or a panic. -/
def run : Nat → VM → Option (Except RunErr VM)
  | 0, _ => none
  | fuel + 1, vm =>
    match currentFrame vm with
    | .error e => some (.error e)
    | .ok fr =>
      if fr.ip < (fr.clFn.instructions.length : Int) - 1 then
        match step vm with
        | .error e => some (.error e)
        | .ok (.inl vm1) => run fuel vm1
        | .ok (.inr vm1) => some (.ok vm1)
      else some (.ok vm)

/-! ## ast package

Core node shapes follow `ast/ast.go` (`Program`, `LetStatement`,
`ReturnStatement`, `ExpressionStatement`, `BlockStatement`, `Identifier`,
`IntegerLiteral`, `Boolean`, `PrefixExpression`, `InfixExpression`,
`IfExpression`, `FunctionLiteral`, `CallExpression`).  A
`BlockStatement` is its statement list.

Modelled from the spec: the node variants `StringLiteral`, `ArrayLiteral`,
`HashLiteral` and `IndexExpression` — the `ast.go` version defining them
is missing from the snapshot (only their compiler cases reference them);
their shapes follow the spec §3 (`StringLiteral(string)`,
`ArrayLiteral(elems)`, `HashLiteral(pairs)`,
`IndexExpression(left, index)`). -/

mutual

inductive Expr where
  | ident (value : String)
  | intLit (value : Int)
  | strLit (value : List Nat)
  | boolLit (value : Bool)
  | prefixExpr (operator : String) (right : Expr)
  | infixExpr (operator : String) (left right : Expr)
  | ifExpr (condition : Expr) (consequence : List Stmt)
           (alternative : Option (List Stmt))
  | fnLit (parameters : List String) (body : List Stmt)
  | callExpr (function : Expr) (arguments : List Expr)
  | arrayLit (elements : List Expr)
  | hashLit (pairs : List (Expr × Expr))
  | indexExpr (left index : Expr)

inductive Stmt where
  | letStmt (name : String) (value : Expr)
  | returnStmt (value : Expr)
  | exprStmt (expression : Expr)

end

/-- Bytes rendered as a string (for `StringLiteral.String()`). -/
def bytesToString (l : List Nat) : String :=
  String.mk (l.map Char.ofNat)

mutual

/-- The `String()` rendering of a node (`ast.go`), used by the compiler to
order hash-literal keys.  The integer and string literal renderings use
the value where the source uses the original token literal, and the
bracket forms of the spec-modelled nodes follow the book's renderings. -/
def renderExpr : Expr → String
  | .ident value => value
  | .intLit value => toString value
  | .strLit value => bytesToString value
  | .boolLit value => if value then "true" else "false"
  | .prefixExpr operator right => "(" ++ operator ++ renderExpr right ++ ")"
  | .infixExpr operator left right =>
      "(" ++ renderExpr left ++ " " ++ operator ++ " " ++ renderExpr right ++ ")"
  | .ifExpr condition consequence alternative =>
      "if" ++ renderExpr condition ++ " " ++ renderStmts consequence ++
      (match alternative with
       | some alt => "else " ++ renderStmts alt
       | none => "")
  | .fnLit parameters body =>
      "fn(" ++ String.intercalate ", " parameters ++ ") " ++ renderStmts body
  | .callExpr function arguments =>
      renderExpr function ++ "(" ++
        String.intercalate ", " (renderExprList arguments) ++ ")"
  | .arrayLit elements =>
      "[" ++ String.intercalate ", " (renderExprList elements) ++ "]"
  | .hashLit pairs =>
      "\x7b" ++ String.intercalate ", " (renderPairList pairs) ++ "\x7d"
  | .indexExpr left index =>
      "(" ++ renderExpr left ++ "[" ++ renderExpr index ++ "])"

def renderExprList : List Expr → List String
  | [] => []
  | e :: rest => renderExpr e :: renderExprList rest

def renderPairList : List (Expr × Expr) → List String
  | [] => []
  | (k, v) :: rest => (renderExpr k ++ ":" ++ renderExpr v) :: renderPairList rest

def renderStmt : Stmt → String
  | .letStmt name value => "let " ++ name ++ " = " ++ renderExpr value ++ ";"
  | .returnStmt value => "return " ++ renderExpr value ++ ";"
  | .exprStmt expression => renderExpr expression

def renderStmts : List Stmt → String
  | [] => ""
  | s :: rest => renderStmt s ++ renderStmts rest

end

/-- Insertion step of the hash-key sort (ascending by rendered key). -/
def insertPairByRender (p : Expr × Expr) :
    List (Expr × Expr) → List (Expr × Expr)
  | [] => [p]
  | q :: rest =>
      if renderExpr p.1 < renderExpr q.1 then p :: q :: rest
      else q :: insertPairByRender p rest

/-- `sort.Slice(keys, func(i, j) ... keys[i].String() < keys[j].String())`
of the `HashLiteral` case, as an insertion sort of the pair list by the
rendered key (same order for distinct keys). -/
def sortPairsByRender : List (Expr × Expr) → List (Expr × Expr)
  | [] => []
  | p :: rest => insertPairByRender p (sortPairsByRender rest)

theorem sizeOf_insertPairByRender (p : Expr × Expr) (l : List (Expr × Expr)) :
    sizeOf (insertPairByRender p l) = 1 + sizeOf p + sizeOf l := by
  induction l with
  | nil => simp [insertPairByRender]
  | cons q rest ih =>
      simp only [insertPairByRender]
      split
      · simp
      · simp [ih]
        omega

theorem sizeOf_sortPairsByRender (l : List (Expr × Expr)) :
    sizeOf (sortPairsByRender l) = sizeOf l := by
  induction l with
  | nil => rfl
  | cons p rest ih =>
      simp only [sortPairsByRender, sizeOf_insertPairByRender, ih]
      simp

/-! ## compiler package (`compiler/compiler.go`, first/current version,
with compilation scopes) -/

/-- `EmittedInstruction` (zero value: opcode 0, position 0). -/
structure EmittedInstruction where
  opcode : Opcode
  position : Nat
  deriving DecidableEq, Repr

/-- `CompilationScope`. -/
structure CompilationScope where
  instructions : List Nat
  lastInstruction : EmittedInstruction
  previousInstruction : EmittedInstruction
  deriving DecidableEq, Repr

/-- A fresh scope (`New` / `enterScope`). -/
def emptyScope : CompilationScope :=
  { instructions := []
    lastInstruction := ⟨.opConstant, 0⟩
    previousInstruction := ⟨.opConstant, 0⟩ }

/-- The `Compiler` state. -/
structure Compiler where
  constants : List Object
  scopes : List CompilationScope
  scopeIndex : Nat
  symbolTable : SymbolTable

/-- `compiler.New`. -/
def compilerNew : Compiler :=
  { constants := []
    scopes := [emptyScope]
    scopeIndex := 0
    symbolTable := newSymbolTable }

/-- `c.scopes[c.scopeIndex]`. -/
def currentScope (c : Compiler) : CompilationScope :=
  c.scopes.getD c.scopeIndex emptyScope

/-- Write back `c.scopes[c.scopeIndex]`. -/
def withCurrentScope (c : Compiler) (s : CompilationScope) : Compiler :=
  { c with scopes :=
      c.scopes.take c.scopeIndex ++ [s] ++ c.scopes.drop (c.scopeIndex + 1) }

/-- `addConstant`: append and return the index of the appended constant. -/
def addConstant (c : Compiler) (obj : Object) : Nat × Compiler :=
  (c.constants.length, { c with constants := c.constants ++ [obj] })

/-- `addInstruction`: append bytes to the current scope, returning the
position of the new instruction. -/
def addInstruction (c : Compiler) (ins : List Nat) : Nat × Compiler :=
  let scope := currentScope c
  (scope.instructions.length,
   withCurrentScope c { scope with instructions := scope.instructions ++ ins })

/-- `setLastInstruction`. -/
def setLastInstruction (c : Compiler) (op : Opcode) (pos : Nat) : Compiler :=
  let scope := currentScope c
  withCurrentScope c
    { scope with
      previousInstruction := scope.lastInstruction
      lastInstruction := ⟨op, pos⟩ }

/-- `emit`: make the instruction, add it, record it. -/
def emit (c : Compiler) (op : Opcode) (operands : List Nat) : Nat × Compiler :=
  let ins := make op operands
  let (pos, c1) := addInstruction c ins
  (pos, setLastInstruction c1 op pos)

/-- `lastInstructionIs`. -/
def lastInstructionIs (c : Compiler) (op : Opcode) : Bool :=
  if (currentScope c).instructions.length = 0 then false
  else (currentScope c).lastInstruction.opcode = op

/-- `removeLastPop`: truncate to the last instruction's position and fall
back to the previous record. -/
def removeLastPop (c : Compiler) : Compiler :=
  let scope := currentScope c
  withCurrentScope c
    { scope with
      instructions := scope.instructions.take scope.lastInstruction.position
      lastInstruction := scope.previousInstruction }

/-- `replaceInstruction`: overwrite bytes in place (call sites always
replace with an instruction of equal length, in bounds). -/
def replaceInstruction (c : Compiler) (pos : Nat) (newInstruction : List Nat) :
    Compiler :=
  let scope := currentScope c
  let ins := scope.instructions
  withCurrentScope c
    { scope with
      instructions :=
        ins.take pos ++ newInstruction.take (ins.length - pos) ++
        ins.drop (pos + newInstruction.length) }

/-- `changeOperand`: re-`Make` the instruction at `opPos` with the new
operand (an unknown opcode byte would make `Make` return no bytes). -/
def changeOperand (c : Compiler) (opPos : Nat) (operand : Nat) : Compiler :=
  match byteToOpcode ((currentScope c).instructions.getD opPos 0) with
  | some op => replaceInstruction c opPos (make op [operand])
  | none => replaceInstruction c opPos []

/-- `replaceLastPopWithReturn`. -/
def replaceLastPopWithReturn (c : Compiler) : Compiler :=
  let lastPos := (currentScope c).lastInstruction.position
  let c1 := replaceInstruction c lastPos (make .opReturnValue [])
  let scope := currentScope c1
  withCurrentScope c1
    { scope with lastInstruction := { scope.lastInstruction with opcode := .opReturnValue } }

/-- `enterScope`: push a fresh scope and enclose the symbol table. -/
def enterScope (c : Compiler) : Compiler :=
  { c with
    scopes := c.scopes ++ [emptyScope]
    scopeIndex := c.scopeIndex + 1
    symbolTable := newEnclosedSymbolTable c.symbolTable }

/-- `leaveScope`: return the left scope's instructions, drop it, restore
the outer symbol table (`c.symbolTable = c.symbolTable.Outer`; the Go
version would store a nil pointer if there were no outer — unreachable,
since `leaveScope` is only called after `enterScope`). -/
def leaveScope (c : Compiler) : List Nat × Compiler :=
  let instructions := (currentScope c).instructions
  (instructions,
   { c with
     scopes := c.scopes.take (c.scopes.length - 1)
     scopeIndex := c.scopeIndex - 1
     symbolTable :=
       match c.symbolTable.outer with
       | some o => o
       | none => newSymbolTable })

/-- Parameter definition loop of the `FunctionLiteral` case. -/
def defineParams (params : List String) (c : Compiler) : Compiler :=
  match params with
  | [] => c
  | p :: rest =>
      let (_, st) := c.symbolTable.define p
      defineParams rest { c with symbolTable := st }

/-!
The compiler walks the AST by structural recursion.  Because the
`HashLiteral` case recurses into a *sorted permutation* of its pairs, the
Lean recursion is made structural on an explicit fuel argument (first
parameter); fuel is decremented at every recursive call, so any fuel
larger than the node count of the tree is enough, and `compileProgram`
supplies a generous constant.  Fuel exhaustion is a distinguished error
that no claim's input reaches.
-/

mutual

/-- `Compiler.Compile` on an expression. -/
def compileExpr : Nat → Expr → Compiler → Except String Compiler
  | 0, _, _ => .error "compiler fuel exhausted"
  | fuel + 1, node, c =>
    match node with
    | .prefixExpr operator right => do
        let c1 ← compileExpr fuel right c
        match operator with
        | "!" => pure (emit c1 .opBang []).2
        | "-" => pure (emit c1 .opMinus []).2
        | _ => .error ("unknown operator " ++ operator)
    | .infixExpr operator left right =>
        if operator = "<" then do
          let c1 ← compileExpr fuel right c
          let c2 ← compileExpr fuel left c1
          pure (emit c2 .opGreaterThan []).2
        else do
          let c1 ← compileExpr fuel left c
          let c2 ← compileExpr fuel right c1
          match operator with
          | "+" => pure (emit c2 .opAdd []).2
          | "-" => pure (emit c2 .opSub []).2
          | "*" => pure (emit c2 .opMul []).2
          | "/" => pure (emit c2 .opDiv []).2
          | ">" => pure (emit c2 .opGreaterThan []).2
          | "==" => pure (emit c2 .opEqual []).2
          | "!=" => pure (emit c2 .opNotEqual []).2
          | _ => .error ("unknown operator " ++ operator)
    | .boolLit value =>
        if value then pure (emit c .opTrue []).2 else pure (emit c .opFalse []).2
    | .intLit value =>
        let (pos, c1) := addConstant c (.integer value)
        pure (emit c1 .opConstant [pos]).2
    | .ifExpr condition consequence alternative => do
        let c1 ← compileExpr fuel condition c
        let (jumpNotTruthyPos, c2) := emit c1 .opJumpNotTruthy [9999]
        let c3 ← compileStmts fuel consequence c2
        let c4 := if lastInstructionIs c3 .opPop then removeLastPop c3 else c3
        let (jumpPos, c5) := emit c4 .opJump [9999]
        let afterConsequencePos := (currentScope c5).instructions.length
        let c6 := changeOperand c5 jumpNotTruthyPos afterConsequencePos
        let c7 ← match alternative with
          | none => pure (emit c6 .opNull []).2
          | some alt => do
              let c7a ← compileStmts fuel alt c6
              pure (if lastInstructionIs c7a .opPop then removeLastPop c7a else c7a)
        let afterAlternativePos := (currentScope c7).instructions.length
        pure (changeOperand c7 jumpPos afterAlternativePos)
    | .ident value =>
        match c.symbolTable.resolve value with
        | none => .error ("undefined variable " ++ value)
        | some symbol =>
            if symbol.scope = .globalScope then
              pure (emit c .opGetGlobal [symbol.index]).2
            else
              pure (emit c .opGetLocal [symbol.index]).2
    | .strLit value =>
        let (pos, c1) := addConstant c (.strObj value)
        pure (emit c1 .opConstant [pos]).2
    | .arrayLit elements => do
        let c1 ← compileExprList fuel elements c
        pure (emit c1 .opArray [elements.length]).2
    | .hashLit pairs => do
        let c1 ← compilePairList fuel (sortPairsByRender pairs) c
        pure (emit c1 .opHash [pairs.length * 2]).2
    | .indexExpr left index => do
        let c1 ← compileExpr fuel left c
        let c2 ← compileExpr fuel index c1
        pure (emit c2 .opIndex []).2
    | .fnLit parameters body => do
        let c1 := enterScope c
        let c2 := defineParams parameters c1
        let c3 ← compileStmts fuel body c2
        let c4 := if lastInstructionIs c3 .opPop then replaceLastPopWithReturn c3 else c3
        let c5 := if !lastInstructionIs c4 .opReturnValue then (emit c4 .opReturn []).2 else c4
        let numLocals := c5.symbolTable.numDefinitions
        let (instructions, c6) := leaveScope c5
        let compiledFn : Object := .compiledFunction
          { instructions := instructions
            numLocals := numLocals
            numParameters := parameters.length }
        let (pos, c7) := addConstant c6 compiledFn
        pure (emit c7 .opConstant [pos]).2
    | .callExpr function arguments => do
        let c1 ← compileExpr fuel function c
        let c2 ← compileExprList fuel arguments c1
        pure (emit c2 .opCall [arguments.length]).2

/-- `Compiler.Compile` on a statement. -/
def compileStmt : Nat → Stmt → Compiler → Except String Compiler
  | 0, _, _ => .error "compiler fuel exhausted"
  | fuel + 1, node, c =>
    match node with
    | .exprStmt expression => do
        let c1 ← compileExpr fuel expression c
        pure (emit c1 .opPop []).2
    | .letStmt name value => do
        let c1 ← compileExpr fuel value c
        let (symbol, st) := c1.symbolTable.define name
        let c2 : Compiler := { c1 with symbolTable := st }
        if symbol.scope = .globalScope then
          pure (emit c2 .opSetGlobal [symbol.index]).2
        else
          pure (emit c2 .opSetLocal [symbol.index]).2
    | .returnStmt value => do
        let c1 ← compileExpr fuel value c
        pure (emit c1 .opReturnValue []).2

/-- `Compiler.Compile` on a statement list (`Program`/`BlockStatement`). -/
def compileStmts : Nat → List Stmt → Compiler → Except String Compiler
  | 0, _, _ => .error "compiler fuel exhausted"
  | _ + 1, [], c => pure c
  | fuel + 1, s :: rest, c => do
      let c1 ← compileStmt fuel s c
      compileStmts fuel rest c1

/-- Element loop of the `ArrayLiteral`/`CallExpression` cases. -/
def compileExprList : Nat → List Expr → Compiler → Except String Compiler
  | 0, _, _ => .error "compiler fuel exhausted"
  | _ + 1, [], c => pure c
  | fuel + 1, e :: rest, c => do
      let c1 ← compileExpr fuel e c
      compileExprList fuel rest c1

/-- Sorted key/value loop of the `HashLiteral` case. -/
def compilePairList : Nat → List (Expr × Expr) → Compiler → Except String Compiler
  | 0, _, _ => .error "compiler fuel exhausted"
  | _ + 1, [], c => pure c
  | fuel + 1, (k, v) :: rest, c => do
      let c1 ← compileExpr fuel k c
      let c2 ← compileExpr fuel v c1
      compilePairList fuel rest c2

end

mutual

/-- Node count of an expression (fuel bound for the compiler: fuel is
decremented once per recursive call and every recursive call goes to a
strictly smaller subtree or to a permutation of one, so any fuel above the
node count of the tree never runs out). -/
def exprCount : Expr → Nat
  | .ident _ => 1
  | .intLit _ => 1
  | .strLit _ => 1
  | .boolLit _ => 1
  | .prefixExpr _ right => 1 + exprCount right
  | .infixExpr _ left right => 1 + exprCount left + exprCount right
  | .ifExpr condition consequence alternative =>
      1 + exprCount condition + stmtsCount consequence +
      (match alternative with
       | some alt => 1 + stmtsCount alt
       | none => 1)
  | .fnLit _ body => 1 + stmtsCount body
  | .callExpr function arguments => 1 + exprCount function + exprListCount arguments
  | .arrayLit elements => 1 + exprListCount elements
  | .hashLit pairs => 1 + pairsCount pairs
  | .indexExpr left index => 1 + exprCount left + exprCount index

def stmtCount : Stmt → Nat
  | .letStmt _ value => 1 + exprCount value
  | .returnStmt value => 1 + exprCount value
  | .exprStmt expression => 1 + exprCount expression

def stmtsCount : List Stmt → Nat
  | [] => 1
  | s :: rest => 1 + stmtCount s + stmtsCount rest

def exprListCount : List Expr → Nat
  | [] => 1
  | e :: rest => 1 + exprCount e + exprListCount rest

def pairsCount : List (Expr × Expr) → Nat
  | [] => 1
  | (k, v) :: rest => 1 + exprCount k + exprCount v + pairsCount rest

end

/-- Compile a whole program from a fresh compiler (`New` + `Compile` on
the `*ast.Program`), with fuel derived from the program's node count. -/
def compileProgram (program : List Stmt) : Except String Compiler :=
  compileStmts (stmtsCount program + 1) program compilerNew

/-- `Compiler.Bytecode`. -/
def bytecodeOf (c : Compiler) : Bytecode :=
  { instructions := (currentScope c).instructions
    constants := c.constants }

/-! ## Claims -/

/-- C4: the instruction encoder satisfies the three byte equations:
`Make(Constant, 65534) = [opcode, 255, 254]`,
`Make(GetLocal, 255) = [opcode, 255]` and
`Make(Closure, 65534, 255) = [opcode, 255, 254, 255]`, with multi-byte
operands big-endian. -/
theorem make_byte_encodings :
    make .opConstant [65534] = [Opcode.toByte .opConstant, 255, 254] ∧
    make .opGetLocal [255] = [Opcode.toByte .opGetLocal, 255] ∧
    make .opClosure [65534, 255] = [Opcode.toByte .opClosure, 255, 254, 255] :=
  ⟨rfl, rfl, rfl⟩

/-- The three-level symbol-table chain of the claim: a global table
defining `a`, an enclosed table defining `c`, and a second enclosed
table. -/
def c2SecondTable : SymbolTable :=
  newEnclosedSymbolTable
    (((newEnclosedSymbolTable (newSymbolTable.define "a").2).define "c").2)

/-- C2 (code bug): when the second enclosed table resolves `c`, found as a
Local in its parent, the snapshot's `Resolve` returns the parent's Local
symbol **unchanged** — there is no Free-scope conversion and the
`SymbolTable` has no `FreeSymbols` list at all (the package's own test
`symbol_table_test.go` `TestResolveFree` expects
`{c, FreeScope, 0}` appended to `FreeSymbols`). -/
theorem resolve_returns_outer_local_unchanged :
    c2SecondTable.resolve "c" =
      some { name := "c", scope := .localScope, index := 0 } := rfl

/-- The program `1 / 0;`. -/
def divZeroProgram : List Stmt :=
  [.exprStmt (.infixExpr "/" (.intLit 1) (.intLit 0))]

/-- C7 counterexample: running `1 / 0;` through the compiler and VM ends
in a Go runtime panic (`integer divide by zero`) — the process traps —
and that outcome is not an error value returned from `Run`. -/
theorem divide_by_zero_is_panic_not_error :
    (compileProgram divZeroProgram).map (fun c => run 10 (vmNew (bytecodeOf c)))
      = .ok (some (.error (.goPanic "runtime error: integer divide by zero"))) ∧
    ∀ msg, (Except.error (RunErr.goPanic "runtime error: integer divide by zero")
        : Except RunErr VM) ≠ .error (.runtimeErr msg) := by
  refine ⟨rfl, ?_⟩
  intro msg h
  exact absurd (Except.error.inj h) (by simp)

/-- C7 amended: executing a division whose right operand is `Integer 0`
makes the VM hit Go's `integer divide by zero` runtime panic — a fatal
trap, not a runtime error returned from `Run`
(`executeBinaryIntegerOperation` divides without a zero check). -/
theorem divide_by_zero_amended :
    (∀ (vm : VM) (a : Int),
        executeBinaryIntegerOperation .opDiv (.integer a) (.integer 0) vm
          = .error (.goPanic "runtime error: integer divide by zero")) ∧
    (compileProgram divZeroProgram).map (fun c => run 10 (vmNew (bytecodeOf c)))
      = .ok (some (.error (.goPanic "runtime error: integer divide by zero"))) :=
  ⟨fun _ _ => rfl, rfl⟩

/-- A VM whose 1024-slot frame stack is full and whose stack top is a
nullary closure about to be called. -/
def c8FullFramesVM : VM :=
  { constants := []
    frames := List.replicate 1024 (newFrame ⟨[], 0, 0⟩ [] 0)
    framesIndex := 1024
    stack := [.closure ⟨[], 0, 0⟩ []]
    sp := 1
    globals := [] }

/-- C8 counterexample: a call that would grow the frame stack past its
1024 capacity does **not** make `Run` return a runtime error — the
unchecked `frames[framesIndex]` write is an index-out-of-range panic. -/
theorem frame_overflow_is_panic_not_error :
    executeCall 0 c8FullFramesVM
      = .error (.goPanic "runtime error: index out of range") ∧
    ∀ msg, executeCall 0 c8FullFramesVM ≠ .error (.runtimeErr msg) := by
  refine ⟨rfl, ?_⟩
  intro msg h
  rw [(rfl : executeCall 0 c8FullFramesVM
      = .error (.goPanic "runtime error: index out of range"))] at h
  exact absurd (Except.error.inj h) (by simp)

/-- C8 amended: growing the 2048-slot value stack past its capacity is
reported as the returned runtime error "stack overflow" (checked by
`push`); growing the 1024-slot frame stack past its capacity is an
unchecked array write — an index-out-of-range panic, not a returned
runtime error. -/
theorem overflow_amended (vm : VM) (o : Object) (f : Frame)
    (hsp : stackSize ≤ vm.sp) (hfi : maxFrames ≤ vm.framesIndex) :
    push vm o = .error (.runtimeErr "stack overflow") ∧
    pushFrame vm f = .error (.goPanic "runtime error: index out of range") := by
  constructor
  · simp only [push, if_pos hsp]
  · have : ¬(0 ≤ vm.framesIndex ∧ vm.framesIndex < maxFrames) := by
      simp only [maxFrames] at hfi ⊢
      omega
    simp only [pushFrame, if_neg this]

/-- Witness for `overflow_amended` at a concrete over-full VM state. -/
theorem overflow_amended_witness :
    stackSize ≤ c8FullFramesVM.sp + 2047 ∧
    maxFrames ≤ c8FullFramesVM.framesIndex ∧
    (push { c8FullFramesVM with sp := c8FullFramesVM.sp + 2047 } .null
        = .error (.runtimeErr "stack overflow") ∧
     pushFrame { c8FullFramesVM with sp := c8FullFramesVM.sp + 2047 }
        (newFrame ⟨[], 0, 0⟩ [] 0)
        = .error (.goPanic "runtime error: index out of range")) :=
  ⟨by decide, by decide,
   overflow_amended { c8FullFramesVM with sp := c8FullFramesVM.sp + 2047 }
     .null (newFrame ⟨[], 0, 0⟩ [] 0) (by decide) (by decide)⟩

/-- `natSet` succeeds exactly on indices below the length. -/
theorem natSet_isSome (v : α) :
    ∀ (l : List α) (n : Nat), (natSet l n v).isSome ↔ n < l.length := by
  intro l
  induction l with
  | nil => intro n; simp [natSet]
  | cons a rest ih =>
      intro n
      cases n with
      | zero => simp [natSet]
      | succ m =>
          simp only [natSet, List.length_cons]
          cases h : natSet rest m v with
          | none =>
              have := (ih m).symm
              rw [h] at this
              simp at this
              simp [h]
              omega
          | some l2 =>
              have := ih m
              rw [h] at this
              simp at this
              simp [h]
              omega

/-- C10: a `SetGlobal`/`GetGlobal` operand is read as a 2-byte big-endian
integer, so the decoded index is below 65536, which is `GlobalsSize`, the
length of the globals slab allocated by `New`; hence both the write
(`intSet`) and the read (`intGet`) of the globals slab performed by `Run`
for these opcodes are in bounds. -/
theorem globals_access_in_bounds (ins : List Nat) (off : Int) (idx : Nat)
    (vm : VM) (v : Object) (bc : Bytecode)
    (hread : readUint16At ins off = .ok idx)
    (hlen : vm.globals.length = (vmNew bc).globals.length) :
    idx < 65536 ∧ globalsSize = 65536 ∧ (vmNew bc).globals.length = 65536 ∧
    (intSet vm.globals (idx : Int) v).isSome ∧
    (intGet vm.globals (idx : Int)).isSome := by
  have hvm : (vmNew bc).globals.length = 65536 := by
    simp only [vmNew, List.length_replicate]
  have hidx : idx < 65536 := by
    unfold readUint16At at hread
    split at hread
    · have := Except.ok.inj hread
      have h0 : ins.getD off.toNat 0 % 256 < 256 := Nat.mod_lt _ (by omega)
      have h1 : ins.getD (off.toNat + 1) 0 % 256 < 256 := Nat.mod_lt _ (by omega)
      omega
    · exact absurd hread (by simp)
  refine ⟨hidx, rfl, hvm, ?_, ?_⟩
  · rw [intSet, if_neg (by omega)]
    rw [natSet_isSome]
    simp only [Int.toNat_natCast]
    omega
  · rw [intGet, if_neg (by omega)]
    rw [Option.isSome_iff_ne_none]
    intro hnone
    rw [List.get?_eq_none] at hnone
    simp only [Int.toNat_natCast] at hnone
    omega

/-- Witness for `globals_access_in_bounds`: the operand bytes `[0, 3]`
after a `SetGlobal` opcode, read at offset 1, on the freshly allocated
VM. -/
theorem globals_access_in_bounds_witness :
    readUint16At [16, 0, 3] 1 = .ok 3 ∧
    (3 < 65536 ∧ globalsSize = 65536 ∧
     (vmNew ⟨[], []⟩).globals.length = 65536 ∧
     (intSet (vmNew ⟨[], []⟩).globals ((3 : Nat) : Int) .null).isSome ∧
     (intGet (vmNew ⟨[], []⟩).globals ((3 : Nat) : Int)).isSome) :=
  ⟨rfl, globals_access_in_bounds [16, 0, 3] 1 3 (vmNew ⟨[], []⟩) .null ⟨[], []⟩
    rfl rfl⟩

/-- `Except` bind on a success value (do-notation reduction helper). -/
theorem exc_bind_ok (a : α) (f : α → Except ε β) :
    (Except.ok a : Except ε α) >>= f = f a := rfl

/-- `Except` bind on an error (do-notation reduction helper). -/
theorem exc_bind_error (e : ε) (f : α → Except ε β) :
    (Except.error e : Except ε α) >>= f = Except.error e := rfl

/-- `pure` into `Except` (do-notation reduction helper). -/
theorem exc_pure_eq_ok (a : α) : (pure a : Except ε α) = Except.ok a := rfl

/-- The program `a < b;`. -/
def lessThanProgram (a b : Int) : List Stmt :=
  [.exprStmt (.infixExpr "<" (.intLit a) (.intLit b))]

/-- The compiler state produced for `a < b;`: the pool holds `b` (the
right operand, compiled first) then `a`, and the instruction stream is
`Constant 0; Constant 1; GreaterThan; Pop`. -/
def lessThanCompiled (a b : Int) : Compiler :=
  { constants := [.integer b, .integer a]
    scopes := [{ instructions := [0, 0, 0, 0, 0, 1, 9, 26]
                 lastInstruction := ⟨.opPop, 7⟩
                 previousInstruction := ⟨.opGreaterThan, 6⟩ }]
    scopeIndex := 0
    symbolTable := .mk none [] 0 }

theorem lessThanProgram_compiles (a b : Int) :
    compileProgram (lessThanProgram a b) = .ok (lessThanCompiled a b) := by
  simp [lessThanProgram, lessThanCompiled, compileProgram, stmtsCount, stmtCount,
    exprCount, compileStmts, compileStmt, compileExpr, emit, addInstruction,
    addConstant, setLastInstruction, currentScope, withCurrentScope, compilerNew,
    emptyScope, make, makeOperands, operandWidths, opcodeDefinitionsModelledFromSpec,
    Opcode.toByte, exc_bind_ok, exc_bind_error, exc_pure_eq_ok, newSymbolTable,
    List.getD_cons_zero, List.getD_cons_succ]

set_option maxHeartbeats 1600000 in
set_option maxRecDepth 8000 in
/-- C5: for 64-bit integers `a` and `b`, the expression statement
`a < b` is compiled by emitting the code for the **right** operand first
(`Constant 0`, whose pool entry is `b`), then the left operand
(`Constant 1`, whose entry is `a`), then `GreaterThan` — the exact
instruction bytes show no other comparison opcode is emitted — and
running the result leaves the interned `True` as the popped value exactly
when `a < b`, `False` otherwise. -/
theorem lessThan_compiles_swapped_greaterThan (a b : Int)
    (ha : -(2 ^ 63) ≤ a ∧ a < 2 ^ 63) (hb : -(2 ^ 63) ≤ b ∧ b < 2 ^ 63) :
    ∃ (c : Compiler) (vm : VM),
      compileProgram (lessThanProgram a b) = .ok c ∧
      (bytecodeOf c).instructions =
        make .opConstant [0] ++ make .opConstant [1] ++
        make .opGreaterThan [] ++ make .opPop [] ∧
      (bytecodeOf c).constants = [.integer b, .integer a] ∧
      run 10 (vmNew (bytecodeOf c)) = some (.ok vm) ∧
      (lastPoppedStackElem vm = some (.boolean true) ↔ a < b) ∧
      (lastPoppedStackElem vm = some (.boolean false) ↔ ¬a < b) := by
  refine ⟨lessThanCompiled a b, _, lessThanProgram_compiles a b, rfl, rfl, rfl,
    ?_, ?_⟩
  · show some (Object.boolean (decide (a < b))) = some (.boolean true) ↔ a < b
    constructor
    · intro h
      have := Object.boolean.inj (Option.some.inj h)
      simpa using this
    · intro h
      simp [h]
  · show some (Object.boolean (decide (a < b))) = some (.boolean false) ↔ ¬a < b
    constructor
    · intro h
      have := Object.boolean.inj (Option.some.inj h)
      simpa using this
    · intro h
      simp [h]

/-- Witness for `lessThan_compiles_swapped_greaterThan` at `a = 3`,
`b = 5`. -/
theorem lessThan_compiles_swapped_greaterThan_witness :
    (-(2 ^ 63) ≤ (3 : Int) ∧ (3 : Int) < 2 ^ 63) ∧
    (∃ (c : Compiler) (vm : VM),
      compileProgram (lessThanProgram 3 5) = .ok c ∧
      (bytecodeOf c).instructions =
        make .opConstant [0] ++ make .opConstant [1] ++
        make .opGreaterThan [] ++ make .opPop [] ∧
      (bytecodeOf c).constants = [.integer 5, .integer 3] ∧
      run 10 (vmNew (bytecodeOf c)) = some (.ok vm) ∧
      (lastPoppedStackElem vm = some (.boolean true) ↔ (3 : Int) < 5) ∧
      (lastPoppedStackElem vm = some (.boolean false) ↔ ¬(3 : Int) < 5)) :=
  ⟨by constructor <;> decide,
   lessThan_compiles_swapped_greaterThan 3 5
     (by constructor <;> decide) (by constructor <;> decide)⟩

/-! ### Scope bookkeeping lemmas for the if-compilation layout claim -/

/-- The compiler's scope index addresses a real scope (holds for every
state the compiler reaches; carried as a hypothesis below). -/
def scopeWF (c : Compiler) : Prop := c.scopeIndex < c.scopes.length

theorem currentScope_withCurrentScope (c : Compiler) (s : CompilationScope)
    (h : scopeWF c) : currentScope (withCurrentScope c s) = s := by
  unfold scopeWF at h
  unfold currentScope withCurrentScope
  have hlen : (c.scopes.take c.scopeIndex).length = c.scopeIndex := by
    rw [List.length_take]
    omega
  rw [List.append_assoc, List.getD_append_right _ _ _ _ (le_of_eq hlen),
    hlen]
  simp

theorem withCurrentScope_scopeIndex (c : Compiler) (s : CompilationScope) :
    (withCurrentScope c s).scopeIndex = c.scopeIndex := rfl

theorem withCurrentScope_wf (c : Compiler) (s : CompilationScope)
    (h : scopeWF c) : scopeWF (withCurrentScope c s) := by
  unfold scopeWF withCurrentScope at *
  simp only [List.length_append, List.length_take]
  simp
  omega

theorem emit_fst (c : Compiler) (op : Opcode) (ops : List Nat) :
    (emit c op ops).1 = (currentScope c).instructions.length := rfl

theorem emit_scopeIndex (c : Compiler) (op : Opcode) (ops : List Nat) :
    (emit c op ops).2.scopeIndex = c.scopeIndex := rfl

theorem emit_wf (c : Compiler) (op : Opcode) (ops : List Nat)
    (h : scopeWF c) : scopeWF (emit c op ops).2 := by
  unfold emit addInstruction setLastInstruction
  refine withCurrentScope_wf _ _ ?_
  have h1 := withCurrentScope_wf c
    { currentScope c with
      instructions := (currentScope c).instructions ++ make op ops }
  exact h1 h

theorem emit_currentScope (c : Compiler) (op : Opcode) (ops : List Nat)
    (h : scopeWF c) :
    currentScope (emit c op ops).2 =
      { instructions := (currentScope c).instructions ++ make op ops
        lastInstruction := ⟨op, (currentScope c).instructions.length⟩
        previousInstruction := (currentScope c).lastInstruction } := by
  unfold emit addInstruction setLastInstruction
  rw [currentScope_withCurrentScope _ _
    (withCurrentScope_wf _ _ h)]
  rw [currentScope_withCurrentScope _ _ h]

theorem replaceInstruction_scopeIndex (c : Compiler) (pos : Nat)
    (new : List Nat) : (replaceInstruction c pos new).scopeIndex = c.scopeIndex := rfl

theorem replaceInstruction_wf (c : Compiler) (pos : Nat) (new : List Nat)
    (h : scopeWF c) : scopeWF (replaceInstruction c pos new) :=
  withCurrentScope_wf _ _ h

theorem changeOperand_wf (c : Compiler) (pos operand : Nat)
    (h : scopeWF c) : scopeWF (changeOperand c pos operand) := by
  unfold changeOperand
  split
  · exact replaceInstruction_wf _ _ _ h
  · exact replaceInstruction_wf _ _ _ h

/-- In-place replacement of a same-length segment at position `|X|`. -/
theorem replaceInstruction_at (c : Compiler) (X Y Z new : List Nat)
    (h : scopeWF c)
    (hins : (currentScope c).instructions = X ++ Y ++ Z)
    (hlen : Y.length = new.length) :
    currentScope (replaceInstruction c X.length new) =
      { currentScope c with instructions := X ++ new ++ Z } := by
  unfold replaceInstruction
  rw [currentScope_withCurrentScope _ _ h]
  congr 1
  rw [hins]
  have htake : (X ++ Y ++ Z).take X.length = X := by
    rw [List.append_assoc, List.take_left]
  have hlength : (X ++ Y ++ Z).length = X.length + Y.length + Z.length := by
    simp
    omega
  have htakenew : new.take ((X ++ Y ++ Z).length - X.length) = new := by
    refine List.take_of_length_le ?_
    omega
  have hdrop : (X ++ Y ++ Z).drop (X.length + new.length) = Z := by
    rw [← hlen]
    have : X.length + Y.length = (X ++ Y).length := by simp
    rw [this, List.drop_left]
  rw [htake, htakenew, hdrop]

/-- `changeOperand` on a width-2 instruction sitting at position `|X|`:
the opcode byte is read back and the instruction is re-encoded with the
new operand. -/
theorem changeOperand_patch (c : Compiler) (X Z : List Nat) (op : Opcode)
    (oldOperand newOperand : Nat)
    (h : scopeWF c)
    (hop : byteToOpcode op.toByte = some op)
    (hlen : (make op [oldOperand]).length = (make op [newOperand]).length)
    (hins : (currentScope c).instructions = X ++ make op [oldOperand] ++ Z) :
    currentScope (changeOperand c X.length newOperand) =
      { currentScope c with
        instructions := X ++ make op [newOperand] ++ Z } := by
  unfold changeOperand
  have hbyte : (currentScope c).instructions.getD X.length 0 = op.toByte := by
    rw [hins, List.append_assoc,
      List.getD_append_right _ _ _ _ (le_refl X.length)]
    simp [make]
  rw [hbyte, hop]
  exact replaceInstruction_at c X (make op [oldOperand]) Z
    (make op [newOperand]) h hins hlen

/-- The compiler state after the `JumpNotTruthy` back-patch of the
if-expression case: the consequence has been compiled and trimmed, `Jump
BOGUS` emitted, and the `JumpNotTruthy` operand patched to the current
position (the position after the consequence's `Jump`). -/
def ifMidState (c1 c3 : Compiler) : Compiler :=
  changeOperand
    (emit (if lastInstructionIs c3 .opPop then removeLastPop c3 else c3)
      .opJump [9999]).2
    (emit c1 .opJumpNotTruthy [9999]).1
    (currentScope
      (emit (if lastInstructionIs c3 .opPop then removeLastPop c3 else c3)
        .opJump [9999]).2).instructions.length

/-- Restatement of the `IfExpression` case of `Compiler.Compile` for an
if-expression without an alternative, in terms of the named mid-state. -/
theorem ifCase_unfold_none (fuel : Nat) (cond : Expr) (cons : List Stmt)
    (c0 : Compiler) :
    compileExpr (fuel + 1) (.ifExpr cond cons none) c0 =
      compileExpr fuel cond c0 >>= fun c1 =>
      compileStmts fuel cons (emit c1 .opJumpNotTruthy [9999]).2 >>= fun c3 =>
      pure (changeOperand (emit (ifMidState c1 c3) .opNull []).2
        (emit (if lastInstructionIs c3 .opPop then removeLastPop c3 else c3)
          .opJump [9999]).1
        (currentScope (emit (ifMidState c1 c3) .opNull []).2).instructions.length) := by
  simp only [compileExpr]
  rfl

/-- Restatement of the `IfExpression` case of `Compiler.Compile` for an
if-expression with an alternative, in terms of the named mid-state. -/
theorem ifCase_unfold_some (fuel : Nat) (cond : Expr) (cons altStmts : List Stmt)
    (c0 : Compiler) :
    compileExpr (fuel + 1) (.ifExpr cond cons (some altStmts)) c0 =
      compileExpr fuel cond c0 >>= fun c1 =>
      compileStmts fuel cons (emit c1 .opJumpNotTruthy [9999]).2 >>= fun c3 =>
      compileStmts fuel altStmts (ifMidState c1 c3) >>= fun c7a =>
      pure (changeOperand
        (if lastInstructionIs c7a .opPop then removeLastPop c7a else c7a)
        (emit (if lastInstructionIs c3 .opPop then removeLastPop c3 else c3)
          .opJump [9999]).1
        (currentScope
          (if lastInstructionIs c7a .opPop then removeLastPop c7a
           else c7a)).instructions.length) := by
  simp only [compileExpr]
  rfl

theorem make_jumpNotTruthy_length (n : Nat) :
    (make .opJumpNotTruthy [n]).length = 3 := rfl

theorem make_jump_length (n : Nat) : (make .opJump [n]).length = 3 := rfl

/-- Layout of `ifMidState`: given the shapes of the state after the
condition and of the trimmed state after the consequence, the mid-state's
instructions are the base, the condition code, the back-patched
`JumpNotTruthy` (targeting the position *after* the consequence and its
trailing `Jump`), the trimmed consequence code and the placeholder
`Jump`. -/
theorem ifMidState_layout (c0 c1 c3 : Compiler) (condCode consCode : List Nat)
    (hwf1 : scopeWF c1)
    (hc1 : (currentScope c1).instructions =
      (currentScope c0).instructions ++ condCode)
    (hwf4 : scopeWF (if lastInstructionIs c3 .opPop then removeLastPop c3 else c3))
    (hc4 : (currentScope
        (if lastInstructionIs c3 .opPop then removeLastPop c3 else c3)).instructions
      = (currentScope c0).instructions ++ condCode ++
        make .opJumpNotTruthy [9999] ++ consCode) :
    (currentScope (ifMidState c1 c3)).instructions =
      ((currentScope c0).instructions ++ condCode) ++
      make .opJumpNotTruthy
        [(currentScope c0).instructions.length + condCode.length + 3 +
          consCode.length + 3] ++
      (consCode ++ make .opJump [9999]) ∧
    scopeWF (ifMidState c1 c3) ∧
    (currentScope (ifMidState c1 c3)).instructions.length =
      (currentScope c0).instructions.length + condCode.length + 3 +
        consCode.length + 3 := by
  set c4 := if lastInstructionIs c3 .opPop then removeLastPop c3 else c3 with hc4def
  set B := (currentScope c0).instructions with hB
  have hwf5 : scopeWF (emit c4 .opJump [9999]).2 := emit_wf _ _ _ hwf4
  have hcs5 : currentScope (emit c4 .opJump [9999]).2 =
      { instructions := (B ++ condCode ++ make .opJumpNotTruthy [9999] ++ consCode)
          ++ make .opJump [9999]
        lastInstruction := ⟨.opJump, (currentScope c4).instructions.length⟩
        previousInstruction := (currentScope c4).lastInstruction } := by
    rw [emit_currentScope _ _ _ hwf4, hc4]
  have hlen5 : (currentScope (emit c4 .opJump [9999]).2).instructions.length =
      B.length + condCode.length + 3 + consCode.length + 3 := by
    rw [hcs5]
    simp [make_jumpNotTruthy_length, make_jump_length]
    omega
  have hpos : (emit c1 .opJumpNotTruthy [9999]).1 = (B ++ condCode).length := by
    rw [emit_fst, hc1]
  have hshape : (currentScope (emit c4 .opJump [9999]).2).instructions =
      (B ++ condCode) ++ make .opJumpNotTruthy [9999] ++
      (consCode ++ make .opJump [9999]) := by
    rw [hcs5]
    simp [List.append_assoc]
  have hpatch := changeOperand_patch (emit c4 .opJump [9999]).2
    (B ++ condCode) (consCode ++ make .opJump [9999]) .opJumpNotTruthy 9999
    ((currentScope (emit c4 .opJump [9999]).2).instructions.length)
    hwf5 rfl
    (by rw [make_jumpNotTruthy_length, make_jumpNotTruthy_length]) hshape
  have hmid : currentScope (ifMidState c1 c3) =
      { currentScope (emit c4 .opJump [9999]).2 with
        instructions := (B ++ condCode) ++
          make .opJumpNotTruthy
            [(currentScope (emit c4 .opJump [9999]).2).instructions.length] ++
          (consCode ++ make .opJump [9999]) } := by
    unfold ifMidState
    rw [← hc4def, hpos]
    exact hpatch
  refine ⟨?_, ?_, ?_⟩
  · rw [hmid]
    rw [hlen5]
  · unfold ifMidState
    rw [← hc4def]
    exact changeOperand_wf _ _ _ hwf5
  · rw [hmid]
    simp [make_jumpNotTruthy_length, make_jump_length]
    omega

theorem make_null_length : (make .opNull []).length = 1 := rfl

/-- If-expression layout, no-alternative case: with `condCode` the code the
condition compiled to and `consCode` the (`Pop`-trimmed) code the
consequence compiled to, the final instructions are condition code,
`JumpNotTruthy` targeting the position after the consequence's `Jump`,
consequence code, `Jump` targeting the position after the `Null`, and
`Null`. -/
theorem ifLayout_none (fuel : Nat) (cond : Expr) (cons : List Stmt)
    (c0 c1 c3 cF : Compiler) (condCode consCode : List Nat)
    (hcond : compileExpr fuel cond c0 = .ok c1)
    (hwf1 : scopeWF c1)
    (hc1 : (currentScope c1).instructions =
      (currentScope c0).instructions ++ condCode)
    (hcons : compileStmts fuel cons (emit c1 .opJumpNotTruthy [9999]).2 = .ok c3)
    (hwf4 : scopeWF (if lastInstructionIs c3 .opPop then removeLastPop c3 else c3))
    (hc4 : (currentScope
        (if lastInstructionIs c3 .opPop then removeLastPop c3 else c3)).instructions
      = (currentScope c0).instructions ++ condCode ++
        make .opJumpNotTruthy [9999] ++ consCode)
    (hfinal : compileExpr (fuel + 1) (.ifExpr cond cons none) c0 = .ok cF) :
    (currentScope cF).instructions =
      (currentScope c0).instructions ++ condCode ++
      make .opJumpNotTruthy
        [(currentScope c0).instructions.length + condCode.length + 3 +
          consCode.length + 3] ++
      consCode ++
      make .opJump
        [(currentScope c0).instructions.length + condCode.length + 3 +
          consCode.length + 4] ++
      make .opNull [] ∧
    scopeWF cF := by
  obtain ⟨hmidins, hmidwf, hmidlen⟩ :=
    ifMidState_layout c0 c1 c3 condCode consCode hwf1 hc1 hwf4 hc4
  set B := (currentScope c0).instructions with hB
  set L := B.length + condCode.length + 3 + consCode.length + 3 with hL
  set c6 := (emit (ifMidState c1 c3) .opNull []).2 with hc6def
  have hwf6 : scopeWF c6 := emit_wf _ _ _ hmidwf
  have hc6 : currentScope c6 =
      { instructions := (currentScope (ifMidState c1 c3)).instructions ++
          make .opNull []
        lastInstruction := ⟨.opNull,
          (currentScope (ifMidState c1 c3)).instructions.length⟩
        previousInstruction := (currentScope (ifMidState c1 c3)).lastInstruction } :=
    emit_currentScope _ _ _ hmidwf
  have hc6ins : (currentScope c6).instructions =
      ((B ++ condCode) ++ make .opJumpNotTruthy [L] ++
        (consCode ++ make .opJump [9999])) ++ make .opNull [] := by
    rw [hc6]
    rw [hmidins]
  have hlen6 : (currentScope c6).instructions.length = L + 1 := by
    rw [hc6ins]
    simp [make_jumpNotTruthy_length, make_jump_length, make_null_length]
    omega
  have hpos2 : (emit (if lastInstructionIs c3 .opPop then removeLastPop c3 else c3)
        .opJump [9999]).1 =
      ((B ++ condCode) ++ make .opJumpNotTruthy [L] ++ consCode).length := by
    rw [emit_fst, hc4]
    simp [make_jumpNotTruthy_length]
  have hins6 : (currentScope c6).instructions =
      ((B ++ condCode) ++ make .opJumpNotTruthy [L] ++ consCode) ++
        make .opJump [9999] ++ make .opNull [] := by
    rw [hc6ins]
    simp [List.append_assoc]
  have hpatch := changeOperand_patch c6
    ((B ++ condCode) ++ make .opJumpNotTruthy [L] ++ consCode)
    (make .opNull []) .opJump 9999 (L + 1)
    hwf6 rfl (by rw [make_jump_length, make_jump_length]) hins6
  have hrun : compileExpr (fuel + 1) (.ifExpr cond cons none) c0 =
      .ok (changeOperand c6
        (emit (if lastInstructionIs c3 .opPop then removeLastPop c3 else c3)
          .opJump [9999]).1
        (currentScope c6).instructions.length) := by
    rw [ifCase_unfold_none, hcond]
    simp only [exc_bind_ok]
    rw [hcons]
    simp only [exc_bind_ok]
    rfl
  rw [hrun] at hfinal
  have hcF : cF = changeOperand c6
      (emit (if lastInstructionIs c3 .opPop then removeLastPop c3 else c3)
        .opJump [9999]).1
      (currentScope c6).instructions.length := (Except.ok.inj hfinal).symm
  rw [hlen6, hpos2] at hcF
  constructor
  · rw [hcF]
    rw [hpatch]
  · rw [hcF]
    exact changeOperand_wf _ _ _ hwf6

/-- If-expression layout, alternative case: with `condCode`, `consCode` and
`altCode` the codes of the condition, trimmed consequence and trimmed
alternative, the final instructions are condition code, `JumpNotTruthy`
targeting the position after the consequence's `Jump`, consequence code,
`Jump` targeting the position after the alternative, and the alternative
code. -/
theorem ifLayout_some (fuel : Nat) (cond : Expr) (cons altStmts : List Stmt)
    (c0 c1 c3 c7a cF : Compiler) (condCode consCode altCode : List Nat)
    (hcond : compileExpr fuel cond c0 = .ok c1)
    (hwf1 : scopeWF c1)
    (hc1 : (currentScope c1).instructions =
      (currentScope c0).instructions ++ condCode)
    (hcons : compileStmts fuel cons (emit c1 .opJumpNotTruthy [9999]).2 = .ok c3)
    (hwf4 : scopeWF (if lastInstructionIs c3 .opPop then removeLastPop c3 else c3))
    (hc4 : (currentScope
        (if lastInstructionIs c3 .opPop then removeLastPop c3 else c3)).instructions
      = (currentScope c0).instructions ++ condCode ++
        make .opJumpNotTruthy [9999] ++ consCode)
    (halt : compileStmts fuel altStmts (ifMidState c1 c3) = .ok c7a)
    (hwf8 : scopeWF (if lastInstructionIs c7a .opPop then removeLastPop c7a else c7a))
    (hc8 : (currentScope
        (if lastInstructionIs c7a .opPop then removeLastPop c7a else c7a)).instructions
      = (currentScope (ifMidState c1 c3)).instructions ++ altCode)
    (hfinal : compileExpr (fuel + 1) (.ifExpr cond cons (some altStmts)) c0 = .ok cF) :
    (currentScope cF).instructions =
      (currentScope c0).instructions ++ condCode ++
      make .opJumpNotTruthy
        [(currentScope c0).instructions.length + condCode.length + 3 +
          consCode.length + 3] ++
      consCode ++
      make .opJump
        [(currentScope c0).instructions.length + condCode.length + 3 +
          consCode.length + 3 + altCode.length] ++
      altCode ∧
    scopeWF cF := by
  obtain ⟨hmidins, hmidwf, hmidlen⟩ :=
    ifMidState_layout c0 c1 c3 condCode consCode hwf1 hc1 hwf4 hc4
  set B := (currentScope c0).instructions with hB
  set L := B.length + condCode.length + 3 + consCode.length + 3 with hL
  set c8 := if lastInstructionIs c7a .opPop then removeLastPop c7a else c7a
    with hc8def
  have hc8ins : (currentScope c8).instructions =
      ((B ++ condCode) ++ make .opJumpNotTruthy [L] ++
        (consCode ++ make .opJump [9999])) ++ altCode := by
    rw [hc8, hmidins]
  have hlen8 : (currentScope c8).instructions.length = L + altCode.length := by
    rw [hc8ins]
    simp [make_jumpNotTruthy_length, make_jump_length]
    omega
  have hpos2 : (emit (if lastInstructionIs c3 .opPop then removeLastPop c3 else c3)
        .opJump [9999]).1 =
      ((B ++ condCode) ++ make .opJumpNotTruthy [L] ++ consCode).length := by
    rw [emit_fst, hc4]
    simp [make_jumpNotTruthy_length]
  have hins8 : (currentScope c8).instructions =
      ((B ++ condCode) ++ make .opJumpNotTruthy [L] ++ consCode) ++
        make .opJump [9999] ++ altCode := by
    rw [hc8ins]
    simp [List.append_assoc]
  have hpatch := changeOperand_patch c8
    ((B ++ condCode) ++ make .opJumpNotTruthy [L] ++ consCode)
    altCode .opJump 9999 (L + altCode.length)
    hwf8 rfl (by rw [make_jump_length, make_jump_length]) hins8
  have hrun : compileExpr (fuel + 1) (.ifExpr cond cons (some altStmts)) c0 =
      .ok (changeOperand c8
        (emit (if lastInstructionIs c3 .opPop then removeLastPop c3 else c3)
          .opJump [9999]).1
        (currentScope c8).instructions.length) := by
    rw [ifCase_unfold_some, hcond]
    simp only [exc_bind_ok]
    rw [hcons]
    simp only [exc_bind_ok]
    rw [halt]
    simp only [exc_bind_ok]
    rfl
  rw [hrun] at hfinal
  have hcF : cF = changeOperand c8
      (emit (if lastInstructionIs c3 .opPop then removeLastPop c3 else c3)
        .opJump [9999]).1
      (currentScope c8).instructions.length := (Except.ok.inj hfinal).symm
  rw [hlen8, hpos2] at hcF
  constructor
  · rw [hcF]
    rw [hpatch]
  · rw [hcF]
    exact changeOperand_wf _ _ _ hwf8

/-- **C3**: compiling an if-expression emits exactly: the condition's code;
`JumpNotTruthy` with a placeholder operand (9999); the consequence's code
with a trailing `Pop` removed when the last emitted instruction is `Pop`;
`Jump` with a placeholder; the `JumpNotTruthy` operand back-patched to the
position after the consequence (condition + 3-byte `JumpNotTruthy` +
trimmed consequence + 3-byte `Jump`); then either a single `Null` (no
alternative) or the alternative's code with the same trailing-`Pop`
removal; and the `Jump` operand back-patched to the position after the
alternative (one byte further for `Null`, `altCode.length` further for an
alternative). Stated for any condition code `condCode` and trimmed
consequence/alternative codes `consCode`/`altCode` these sub-compilations
append to the current scope. -/
theorem if_expression_compilation_layout :
    (∀ (fuel : Nat) (cond : Expr) (cons : List Stmt) (c0 c1 c3 cF : Compiler)
        (condCode consCode : List Nat),
      compileExpr fuel cond c0 = .ok c1 →
      scopeWF c1 →
      (currentScope c1).instructions =
        (currentScope c0).instructions ++ condCode →
      compileStmts fuel cons (emit c1 .opJumpNotTruthy [9999]).2 = .ok c3 →
      scopeWF (if lastInstructionIs c3 .opPop then removeLastPop c3 else c3) →
      (currentScope
          (if lastInstructionIs c3 .opPop then removeLastPop c3 else c3)).instructions
        = (currentScope c0).instructions ++ condCode ++
          make .opJumpNotTruthy [9999] ++ consCode →
      compileExpr (fuel + 1) (.ifExpr cond cons none) c0 = .ok cF →
      (currentScope cF).instructions =
        (currentScope c0).instructions ++ condCode ++
        make .opJumpNotTruthy
          [(currentScope c0).instructions.length + condCode.length + 3 +
            consCode.length + 3] ++
        consCode ++
        make .opJump
          [(currentScope c0).instructions.length + condCode.length + 3 +
            consCode.length + 4] ++
        make .opNull []) ∧
    (∀ (fuel : Nat) (cond : Expr) (cons altStmts : List Stmt)
        (c0 c1 c3 c7a cF : Compiler) (condCode consCode altCode : List Nat),
      compileExpr fuel cond c0 = .ok c1 →
      scopeWF c1 →
      (currentScope c1).instructions =
        (currentScope c0).instructions ++ condCode →
      compileStmts fuel cons (emit c1 .opJumpNotTruthy [9999]).2 = .ok c3 →
      scopeWF (if lastInstructionIs c3 .opPop then removeLastPop c3 else c3) →
      (currentScope
          (if lastInstructionIs c3 .opPop then removeLastPop c3 else c3)).instructions
        = (currentScope c0).instructions ++ condCode ++
          make .opJumpNotTruthy [9999] ++ consCode →
      compileStmts fuel altStmts (ifMidState c1 c3) = .ok c7a →
      scopeWF (if lastInstructionIs c7a .opPop then removeLastPop c7a else c7a) →
      (currentScope
          (if lastInstructionIs c7a .opPop then removeLastPop c7a else c7a)).instructions
        = (currentScope (ifMidState c1 c3)).instructions ++ altCode →
      compileExpr (fuel + 1) (.ifExpr cond cons (some altStmts)) c0 = .ok cF →
      (currentScope cF).instructions =
        (currentScope c0).instructions ++ condCode ++
        make .opJumpNotTruthy
          [(currentScope c0).instructions.length + condCode.length + 3 +
            consCode.length + 3] ++
        consCode ++
        make .opJump
          [(currentScope c0).instructions.length + condCode.length + 3 +
            consCode.length + 3 + altCode.length] ++
        altCode) :=
  ⟨fun fuel cond cons c0 c1 c3 cF condCode consCode
      hcond hwf1 hc1 hcons hwf4 hc4 hfinal =>
    (ifLayout_none fuel cond cons c0 c1 c3 cF condCode consCode
      hcond hwf1 hc1 hcons hwf4 hc4 hfinal).1,
   fun fuel cond cons altStmts c0 c1 c3 c7a cF condCode consCode altCode
      hcond hwf1 hc1 hcons hwf4 hc4 halt hwf8 hc8 hfinal =>
    (ifLayout_some fuel cond cons altStmts c0 c1 c3 c7a cF
      condCode consCode altCode
      hcond hwf1 hc1 hcons hwf4 hc4 halt hwf8 hc8 hfinal).1⟩

/-- State after compiling the condition `true` of the witness
if-expression. -/
def ifWitnessC1 : Compiler :=
  { constants := []
    scopes := [⟨[5], ⟨.opTrue, 0⟩, ⟨.opConstant, 0⟩⟩]
    scopeIndex := 0
    symbolTable := ⟨none, [], 0⟩ }

/-- State after compiling the consequence `{ 10 }` of the witness
if-expression (trailing `Pop` still present). -/
def ifWitnessC3 : Compiler :=
  { constants := [.integer 10]
    scopes := [⟨[5, 12, 39, 15, 0, 0, 0, 26], ⟨.opPop, 7⟩, ⟨.opConstant, 4⟩⟩]
    scopeIndex := 0
    symbolTable := ⟨none, [], 0⟩ }

/-- Final state of compiling `if (true) { 10 }` (no alternative). -/
def ifWitnessCF : Compiler :=
  { constants := [.integer 10]
    scopes := [⟨[5, 12, 0, 10, 0, 0, 0, 13, 0, 11, 14], ⟨.opNull, 10⟩, ⟨.opJump, 7⟩⟩]
    scopeIndex := 0
    symbolTable := ⟨none, [], 0⟩ }

/-- State after compiling the alternative `{ 20 }` of the witness
if-expression (trailing `Pop` still present). -/
def ifWitnessC7a : Compiler :=
  { constants := [.integer 10, .integer 20]
    scopes := [⟨[5, 12, 0, 10, 0, 0, 0, 13, 39, 15, 0, 0, 1, 26],
      ⟨.opPop, 13⟩, ⟨.opConstant, 10⟩⟩]
    scopeIndex := 0
    symbolTable := ⟨none, [], 0⟩ }

/-- Final state of compiling `if (true) { 10 } else { 20 }`. -/
def ifWitnessCG : Compiler :=
  { constants := [.integer 10, .integer 20]
    scopes := [⟨[5, 12, 0, 10, 0, 0, 0, 13, 0, 13, 0, 0, 1],
      ⟨.opConstant, 10⟩, ⟨.opConstant, 10⟩⟩]
    scopeIndex := 0
    symbolTable := ⟨none, [], 0⟩ }

/-- Witness for **C3** at `if (true) { 10 }` and
`if (true) { 10 } else { 20 }`: `[5]` is `OpTrue`, `[12, 0, 10]` the
back-patched `JumpNotTruthy 10`, `[0, 0, 0]` / `[0, 0, 1]` the constant
loads of `10` and `20`, `[13, 0, 11]` / `[13, 0, 13]` the back-patched
`Jump`, `[14]` the `Null`. -/
theorem if_expression_compilation_layout_witness :
    (currentScope ifWitnessCF).instructions =
      (currentScope compilerNew).instructions ++ [5] ++
      make .opJumpNotTruthy [10] ++ [0, 0, 0] ++ make .opJump [11] ++
      make .opNull [] ∧
    (currentScope ifWitnessCG).instructions =
      (currentScope compilerNew).instructions ++ [5] ++
      make .opJumpNotTruthy [10] ++ [0, 0, 0] ++ make .opJump [13] ++
      [0, 0, 1] :=
  ⟨if_expression_compilation_layout.1 3 (.boolLit true)
      [.exprStmt (.intLit 10)] compilerNew ifWitnessC1 ifWitnessC3
      ifWitnessCF [5] [0, 0, 0]
      rfl (by unfold scopeWF; decide) rfl rfl (by unfold scopeWF; decide)
      rfl rfl,
   if_expression_compilation_layout.2 3 (.boolLit true)
      [.exprStmt (.intLit 10)] [.exprStmt (.intLit 20)] compilerNew
      ifWitnessC1 ifWitnessC3 ifWitnessC7a ifWitnessCG [5] [0, 0, 0] [0, 0, 1]
      rfl (by unfold scopeWF; decide) rfl rfl (by unfold scopeWF; decide)
      rfl rfl (by unfold scopeWF; decide) rfl rfl⟩

/-! ### Lexer progress lemmas (claim C9) -/

theorem skipWSAux_ge (rest : List Nat) (pos : Nat) : pos ≤ skipWSAux rest pos := by
  induction rest generalizing pos with
  | nil => exact le_refl _
  | cons c t ih =>
      unfold skipWSAux
      split
      · exact le_trans (Nat.le_succ _) (ih (pos + 1))
      · exact le_refl _

theorem readIdentAux_ge (rest : List Nat) (pos : Nat) :
    pos ≤ readIdentAux rest pos := by
  induction rest generalizing pos with
  | nil => exact le_refl _
  | cons c t ih =>
      unfold readIdentAux
      split
      · exact le_trans (Nat.le_succ _) (ih (pos + 1))
      · exact le_refl _

theorem readNumberAux_ge (rest : List Nat) (pos : Nat) :
    pos ≤ readNumberAux rest pos := by
  induction rest generalizing pos with
  | nil => exact le_refl _
  | cons c t ih =>
      unfold readNumberAux
      split
      · exact le_trans (Nat.le_succ _) (ih (pos + 1))
      · exact le_refl _

theorem readStringAux_ge (rest : List Nat) (pos : Nat) :
    pos ≤ readStringAux rest pos := by
  induction rest generalizing pos with
  | nil => exact le_refl _
  | cons c t ih =>
      unfold readStringAux
      split
      · exact le_refl _
      · exact le_trans (Nat.le_succ _) (ih (pos + 1))

theorem skipWhitespace_input (l : Lexer) : (skipWhitespace l).input = l.input := rfl

theorem skipWhitespace_ge (l : Lexer) : l.position ≤ (skipWhitespace l).position :=
  skipWSAux_ge _ _

theorem nextTokenSwitch_input (l : Lexer) (c : Nat) :
    (nextTokenSwitch l c).2.input = l.input := by
  unfold nextTokenSwitch
  split <;> first
  | (split_ifs <;> rfl)
  | rfl

theorem nextToken_input (l : Lexer) : (nextToken l).2.input = l.input :=
  nextTokenSwitch_input (skipWhitespace l) (lch (skipWhitespace l))

theorem lexStateAt_input (input : List Nat) (k : Nat) :
    (lexStateAt input k).input = input := by
  induction k with
  | zero => rfl
  | succ k ih => rw [lexStateAt, nextToken_input, ih]

/-- `readIdentifier` advances when the current byte is a letter. -/
theorem readIdentEnd_ge_succ (input : List Nat) (pos : Nat)
    (h : isLetter (input.getD pos 0) = true) :
    pos + 1 ≤ readIdentEnd input pos := by
  rcases Nat.lt_or_ge pos input.length with hlt | hge
  · unfold readIdentEnd
    rw [List.drop_eq_getElem_cons hlt]
    rw [List.getD_eq_getElem _ _ hlt] at h
    unfold readIdentAux
    rw [if_pos h]
    exact readIdentAux_ge _ _
  · rw [List.getD_eq_default _ _ hge] at h
    exact absurd h (by decide)

/-- `readNumber` advances when the current byte is a digit. -/
theorem readNumberEnd_ge_succ (input : List Nat) (pos : Nat)
    (h : isDigit (input.getD pos 0) = true) :
    pos + 1 ≤ readNumberEnd input pos := by
  rcases Nat.lt_or_ge pos input.length with hlt | hge
  · unfold readNumberEnd
    rw [List.drop_eq_getElem_cons hlt]
    rw [List.getD_eq_getElem _ _ hlt] at h
    unfold readNumberAux
    rw [if_pos h]
    exact readNumberAux_ge _ _
  · rw [List.getD_eq_default _ _ hge] at h
    exact absurd h (by decide)

/-- Every `NextToken` call advances the position by at least one byte. -/
theorem nextTokenSwitch_pos_ge (l : Lexer) (c : Nat)
    (hL : isLetter c = true → l.position + 1 ≤ readIdentEnd l.input l.position)
    (hD : isDigit c = true → l.position + 1 ≤ readNumberEnd l.input l.position) :
    l.position + 1 ≤ (nextTokenSwitch l c).2.position := by
  have hstr := readStringAux_ge (l.input.drop (l.position + 1)) (l.position + 1)
  unfold nextTokenSwitch
  split <;> (try split_ifs) <;>
    simp only [readChar, readString, readIdentifier, readNumber,
      readStringEnd] <;>
    first
    | omega
    | exact hL (by assumption)
    | exact hD (by assumption)

theorem nextToken_pos_ge (l : Lexer) :
    l.position + 1 ≤ (nextToken l).2.position := by
  have hsw := skipWhitespace_ge l
  have h := nextTokenSwitch_pos_ge (skipWhitespace l) (lch (skipWhitespace l))
    (fun hl => readIdentEnd_ge_succ _ _ hl)
    (fun hd => readNumberEnd_ge_succ _ _ hd)
  unfold nextToken
  omega

theorem lexStateAt_pos_ge (input : List Nat) (k : Nat) :
    k ≤ (lexStateAt input k).position := by
  induction k with
  | zero => exact Nat.zero_le _
  | succ k ih =>
      have := nextToken_pos_ge (lexStateAt input k)
      show k + 1 ≤ (nextToken (lexStateAt input k)).2.position
      omega

/-- Past the end of the input, `NextToken` yields `EOF` and advances. -/
theorem nextToken_past_end (l : Lexer) (h : l.input.length ≤ l.position) :
    nextToken l = (⟨.eof, []⟩, readChar l) := by
  have hsw : skipWhitespace l = l := by
    rcases l with ⟨inp, pos⟩
    simp only [skipWhitespace, skipWSPos]
    rw [List.drop_eq_nil_of_le h]
    rfl
  have hch : lch l = 0 := List.getD_eq_default _ _ h
  show nextTokenSwitch (skipWhitespace l) (lch (skipWhitespace l)) = _
  rw [hsw, hch]
  rfl

theorem lookupIdent_ne_eof (lit : List Nat) : lookupIdent lit ≠ .eof := by
  unfold lookupIdent
  split_ifs <;> decide

/-- The `EOF` token arises only from the `switch` case for byte 0. -/
theorem nextTokenSwitch_eof (l : Lexer) (c : Nat)
    (heof : (nextTokenSwitch l c).1.tokType = .eof) : c = 0 := by
  unfold nextTokenSwitch at heof
  split at heof <;> (try split_ifs at heof) <;>
    first
    | rfl
    | exact absurd heof (lookupIdent_ne_eof _)
    | simp [readString, readNumber] at heof

/-- On an input without NUL bytes, an `EOF` token is only produced at or
past the end of the input, and the successor state is also past the
end. -/
theorem nextToken_eof_past_end (l : Lexer) (hno : ¬ 0 ∈ l.input)
    (heof : (nextToken l).1.tokType = .eof) :
    l.input.length ≤ (nextToken l).2.position := by
  have hc0 : lch (skipWhitespace l) = 0 := nextTokenSwitch_eof _ _ heof
  have hp : l.input.length ≤ (skipWhitespace l).position := by
    by_contra hlt
    push_neg at hlt
    have hg : l.input.getD (skipWhitespace l).position 0 =
        l.input.get ⟨(skipWhitespace l).position, hlt⟩ :=
      List.getD_eq_getElem _ _ hlt
    have hmem : l.input.get ⟨(skipWhitespace l).position, hlt⟩ ∈ l.input :=
      List.get_mem _ _ hlt
    rw [← hg] at hmem
    have he : lch (skipWhitespace l) = l.input.getD (skipWhitespace l).position 0 := rfl
    rw [← he, hc0] at hmem
    exact hno hmem
  have h2 : (nextToken l).2 = readChar (skipWhitespace l) := by
    show (nextTokenSwitch (skipWhitespace l) (lch (skipWhitespace l))).2 = _
    rw [hc0]
    rfl
  rw [h2]
  show l.input.length ≤ (skipWhitespace l).position + 1
  omega

/-- On an input without NUL bytes, the token stream is a finite prefix of
non-`EOF` tokens followed by `EOF` on every later call. -/
theorem lexer_eof_stable (input : List Nat) (hno : ¬ 0 ∈ input) :
    ∃ N, (∀ k, k < N → (tokenAt input k).tokType ≠ .eof) ∧
         (∀ k, N ≤ k → (tokenAt input k).tokType = .eof) := by
  classical
  have hstep : ∀ k, input.length ≤ (lexStateAt input k).position →
      (tokenAt input k).tokType = .eof ∧
      input.length ≤ (lexStateAt input (k + 1)).position := by
    intro k hk
    have hlen : (lexStateAt input k).input.length ≤ (lexStateAt input k).position := by
      rw [lexStateAt_input]
      exact hk
    have h := nextToken_past_end (lexStateAt input k) hlen
    refine ⟨?_, ?_⟩
    · show (nextToken (lexStateAt input k)).1.tokType = .eof
      rw [h]
    · show input.length ≤ (nextToken (lexStateAt input k)).2.position
      rw [h]
      show input.length ≤ (lexStateAt input k).position + 1
      omega
  have hex : ∃ k, (tokenAt input k).tokType = .eof :=
    ⟨input.length, (hstep input.length (lexStateAt_pos_ge input input.length)).1⟩
  refine ⟨Nat.find hex, ?_, ?_⟩
  · intro k hk
    exact Nat.find_min hex hk
  · have hN1 : input.length ≤ (lexStateAt input (Nat.find hex + 1)).position := by
      have hfe : (nextToken (lexStateAt input (Nat.find hex))).1.tokType = .eof :=
        Nat.find_spec hex
      have h := nextToken_eof_past_end (lexStateAt input (Nat.find hex))
        (by rw [lexStateAt_input]; exact hno) hfe
      rw [lexStateAt_input] at h
      exact h
    have hinv : ∀ j, input.length ≤
        (lexStateAt input (Nat.find hex + 1 + j)).position := by
      intro j
      induction j with
      | zero => exact hN1
      | succ j ih => exact (hstep _ ih).2
    intro k hk
    rcases eq_or_lt_of_le hk with heq | hlt
    · rw [← heq]
      exact Nat.find_spec hex
    · rcases Nat.exists_eq_add_of_le hlt with ⟨j, hj⟩
      rw [hj]
      exact (hstep _ (hinv j)).1

/-- A byte that is no recognized operator/delimiter, not a letter (or
underscore), not a digit, not a quote, and not 0, falls through the
`switch` to the `ILLEGAL` token carrying that byte. -/
theorem nextTokenSwitch_illegal (l : Lexer) (c : Nat)
    (hops : ¬ c ∈ [61, 59, 40, 41, 44, 43, 45, 33, 47, 42, 60, 62, 123,
      125, 34, 91, 93, 0])
    (hL : isLetter c = false) (hD : isDigit c = false) :
    nextTokenSwitch l c = (⟨.illegal, [c]⟩, readChar l) := by
  unfold nextTokenSwitch
  split <;>
    first
    | (exact absurd (by decide) hops)
    | simp [hL, hD]

/-- `NextToken` form of `nextTokenSwitch_illegal`. -/
theorem nextToken_illegal (l : Lexer)
    (hops : ¬ lch (skipWhitespace l) ∈ [61, 59, 40, 41, 44, 43, 45, 33, 47,
      42, 60, 62, 123, 125, 34, 91, 93, 0])
    (hL : isLetter (lch (skipWhitespace l)) = false)
    (hD : isDigit (lch (skipWhitespace l)) = false) :
    (nextToken l).1 = ⟨.illegal, [lch (skipWhitespace l)]⟩ := by
  show (nextTokenSwitch (skipWhitespace l) (lch (skipWhitespace l))).1 = _
  rw [nextTokenSwitch_illegal _ _ hops hL hD]

/-- **C9** (counterexample): on the input `"\x00a"` (bytes `[0, 97]`) the
first `NextToken` call yields `EOF` but the second yields the identifier
`a`, so the token stream is not a finite prefix of non-`EOF` tokens
followed by `EOF` on every subsequent call: the NUL byte produces an
`EOF` token mid-stream and lexing continues past it. -/
theorem lexer_totality_counterexample :
    (tokenAt [0, 97] 0).tokType = .eof ∧
    (tokenAt [0, 97] 1).tokType = .ident ∧
    ¬ ∃ N : Nat, (∀ k, k < N → (tokenAt [0, 97] k).tokType ≠ .eof) ∧
        (∀ k, N ≤ k → (tokenAt [0, 97] k).tokType = .eof) := by
  refine ⟨by decide, by decide, ?_⟩
  rintro ⟨N, h1, h2⟩
  rcases N with _ | N
  · exact absurd (h2 1 (by omega)) (by decide)
  · exact h1 0 (by omega) (by decide)

/-- **C9** (amended): on any input *without NUL bytes*, repeated
`NextToken` calls produce a finite prefix of non-`EOF` tokens followed by
`EOF` on every subsequent call (every call terminates by construction —
the functions are total); and any byte that is not a recognized
operator/delimiter, a letter or underscore, a digit, a quote or 0 yields
an `ILLEGAL` token whose literal is that byte. -/
theorem lexer_totality_amended :
    (∀ input : List Nat, ¬ 0 ∈ input →
      ∃ N, (∀ k, k < N → (tokenAt input k).tokType ≠ .eof) ∧
           (∀ k, N ≤ k → (tokenAt input k).tokType = .eof)) ∧
    (∀ l : Lexer,
      ¬ lch (skipWhitespace l) ∈ [61, 59, 40, 41, 44, 43, 45, 33, 47, 42,
        60, 62, 123, 125, 34, 91, 93, 0] →
      isLetter (lch (skipWhitespace l)) = false →
      isDigit (lch (skipWhitespace l)) = false →
      (nextToken l).1 = ⟨.illegal, [lch (skipWhitespace l)]⟩) :=
  ⟨lexer_eof_stable, nextToken_illegal⟩

/-- Witness for the amended **C9**: the input `"a"` has a finite non-`EOF`
prefix then `EOF` forever, and the unknown byte `64` (`@`) lexes to
`ILLEGAL` with literal `@`. -/
theorem lexer_totality_amended_witness :
    (∃ N, (∀ k, k < N → (tokenAt [97] k).tokType ≠ .eof) ∧
          (∀ k, N ≤ k → (tokenAt [97] k).tokType = .eof)) ∧
    (nextToken (lexerNew [64])).1 = ⟨.illegal, [64]⟩ :=
  ⟨lexer_totality_amended.1 [97] (by decide),
   lexer_totality_amended.2 (lexerNew [64]) (by decide) (by decide) (by decide)⟩

/-! ### The closure example (claim C1) -/

/-- The AST of
`let newAdder = fn(a) { fn(b) { a + b } }; let addTwo = newAdder(2); addTwo(3);`
(the parse this snapshot's parser produces). -/
def newAdderProgram : List Stmt :=
  [.letStmt "newAdder" (.fnLit ["a"] [.exprStmt (.fnLit ["b"]
     [.exprStmt (.infixExpr "+" (.ident "a") (.ident "b"))])]),
   .letStmt "addTwo" (.callExpr (.ident "newAdder") [.intLit 2]),
   .exprStmt (.callExpr (.ident "addTwo") [.intLit 3])]

/-- The compiler state `Compile` produces for `newAdderProgram`: both
function literals are emitted as plain `OpConstant` loads of
`CompiledFunction` constants (this snapshot's compiler has no `OpClosure`),
and the inner function's `a` — unresolvable as a free variable — compiles
to `OpGetLocal 0`, the unchanged outer-scope symbol. -/
def newAdderCompiled : Compiler :=
  { constants := [.compiledFunction ⟨[17, 0, 17, 0, 1, 24], 1, 1⟩,
                  .compiledFunction ⟨[0, 0, 0, 24], 1, 1⟩,
                  .integer 2, .integer 3]
    scopes := [⟨[0, 0, 1, 16, 0, 0, 15, 0, 0, 0, 0, 2, 23, 1, 16, 0, 1,
                 15, 0, 1, 0, 0, 3, 23, 1, 26], ⟨.opPop, 25⟩, ⟨.opCall, 23⟩⟩]
    scopeIndex := 0
    symbolTable := .mk none
      [("newAdder", ⟨"newAdder", .globalScope, 0⟩),
       ("addTwo", ⟨"addTwo", .globalScope, 1⟩)] 2 }

set_option maxHeartbeats 1600000 in
set_option maxRecDepth 8000 in
/-- **C1**: the closure example
`let newAdder = fn(a) { fn(b) { a + b } }; let addTwo = newAdder(2); addTwo(3);`
does *not* evaluate to `Integer 5` in this snapshot: compilation succeeds
(to `newAdderCompiled`), but running the bytecode fails with the runtime
error `calling non-function and non-builtin`, because the compiler emits
the function literal as a bare `OpConstant` (`CompiledFunction` constant)
while this VM's `executeCall` only accepts `Closure` and `Builtin`
callees. -/
theorem closure_example_fails_at_call :
    compileProgram newAdderProgram = .ok newAdderCompiled ∧
    run 40 (vmNew (bytecodeOf newAdderCompiled)) =
      some (.error (.runtimeErr "calling non-function and non-builtin")) := by
  constructor
  · simp [newAdderProgram, newAdderCompiled, compileProgram, stmtsCount, stmtCount,
      exprCount, exprListCount, compileStmts, compileStmt, compileExpr, compileExprList,
      emit, addInstruction, addConstant, setLastInstruction, currentScope,
      withCurrentScope, compilerNew, emptyScope, make, makeOperands, operandWidths,
      opcodeDefinitionsModelledFromSpec, Opcode.toByte, exc_bind_ok, exc_bind_error,
      exc_pure_eq_ok, newSymbolTable, newEnclosedSymbolTable, enterScope, leaveScope,
      defineParams, SymbolTable.define, SymbolTable.resolve, SymbolTable.outer,
      SymbolTable.store, SymbolTable.numDefinitions, storeSet, storeGet,
      lastInstructionIs, removeLastPop, replaceLastPopWithReturn, replaceInstruction,
      List.getD_cons_zero, List.getD_cons_succ]
  · rfl

end Monkey
